import Mathlib

/-!
Verification of the slidev-overflow-checker core against its specification.

The TypeScript sources are embedded shallowly:

* JavaScript numbers are modelled as rationals (`ℚ`); all inputs relevant to
  the claims are exact decimals, so rational arithmetic is faithful.
* Strings are modelled as Lean `String`s; the JavaScript string primitives
  used by the code (`trim`, `split`, `startsWith`, `includes`, `substring`)
  are re-implemented over `String.data` so that everything reduces in the
  kernel.  The sources only ever feed ASCII text to the claims below, for
  which the JS (UTF-16) and Lean (scalar point) views coincide.
* DOM geometry (bounding rectangles, scroll metrics, computed styles) is an
  input of the browser environment: elements are records carrying those
  measurements, and the detector logic is a pure function of them.
-/

/-! ## JavaScript string primitives -/

/-- Whitespace as matched by JS `\s` / `String.trim` (ASCII part). -/
def isJsWs (c : Char) : Bool :=
  c = ' ' || c = '\t' || c = '\n' || c = '\r' || c = '\x0b' || c = '\x0c'

/-- JS `String.prototype.trim`. -/
def jsTrim (s : String) : String :=
  String.mk (((s.data.dropWhile isJsWs).reverse.dropWhile isJsWs).reverse)

/-- JS `a.startsWith(b)`. -/
def jsStartsWith (s pat : String) : Bool :=
  pat.data.isPrefixOf s.data

/-- Substring occurrence on character lists (needle, haystack). -/
def listInfix (needle : List Char) : List Char → Bool
  | [] => needle.isEmpty
  | c :: cs => needle.isPrefixOf (c :: cs) || listInfix needle cs

/-- JS `a.includes(b)`. -/
def jsIncludes (s pat : String) : Bool :=
  listInfix pat.data s.data

/-- JS `s.substring(0, n)` (equivalently `s.slice(0, n)`). -/
def jsTake (s : String) (n : Nat) : String :=
  String.mk (s.data.take n)

/-- JS `s.length` (UTF-16 units; ASCII inputs make this the char count). -/
def jsLength (s : String) : Nat :=
  s.data.length

/-- JS `s.split(sep)` for a single-character separator. -/
def jsSplitCharAux (sep : Char) (cur : List Char) : List Char → List String
  | [] => [String.mk cur.reverse]
  | c :: cs =>
    if c = sep then String.mk cur.reverse :: jsSplitCharAux sep [] cs
    else jsSplitCharAux sep (c :: cur) cs

/-- JS `s.split(sep)` for a single-character separator. -/
def jsSplitChar (sep : Char) (s : String) : List String :=
  jsSplitCharAux sep [] s.data

/-- JS `s.split('\n')`, the line splitter used throughout the parsers. -/
def splitLines (s : String) : List String :=
  jsSplitChar '\n' s

/-- JS `lines.join('\n')` on a list of lines. -/
def joinLines : List String → String
  | [] => ""
  | [l] => l
  | l :: ls => l ++ "\n" ++ joinLines ls

/-- Walker for the whitespace split: the current (reversed) piece, plus a
flag recording whether the walk is inside a whitespace run. -/
def jsSplitWsGo : List Char → List Char → Bool → List String
  | [], cur, _ => [String.mk cur.reverse]
  | c :: cs, cur, inRun =>
    if isJsWs c then
      if inRun then jsSplitWsGo cs cur true
      else String.mk cur.reverse :: jsSplitWsGo cs [] true
    else jsSplitWsGo cs (c :: cur) false

/-- JS `s.split(/\s+/)`: pieces between maximal whitespace runs, keeping the
(possibly empty) pieces at either end, as the JS regex split does. -/
def jsSplitWs (s : String) : List String :=
  jsSplitWsGo s.data [] false

/-- JS `s.toLowerCase()` (ASCII). -/
def jsToLower (s : String) : String :=
  String.mk (s.data.map Char.toLower)

/-! ## Shared data model (src/types/index.ts) -/

/-- `SourceInfo` from src/types/index.ts. -/
structure SourceInfo where
  file : String
  line : Nat
  lineEnd : Nat
  content : String
deriving DecidableEq, Repr

/-- `ElementInfo` from src/types/index.ts. -/
structure ElementInfo where
  tag : String
  class? : Option String := none
  id? : Option String := none
  selector : String
  text : Option String := none
  src : Option String := none
deriving DecidableEq, Repr

/-- `Bounds` from src/types/index.ts. -/
structure Bounds where
  left : ℚ
  top : ℚ
  right : ℚ
  bottom : ℚ
deriving DecidableEq, Repr

/-- Details payload of `TextOverflowIssue`. -/
structure TextOverflowDetails where
  containerWidth : ℚ
  containerHeight : ℚ
  contentWidth : ℚ
  contentHeight : ℚ
  overflowX : ℚ
  overflowY : ℚ
deriving DecidableEq, Repr

/-- The four clamped directional amounts of `ElementOverflowIssue.details.overflow`. -/
structure OverflowAmounts where
  left : ℚ
  top : ℚ
  right : ℚ
  bottom : ℚ
deriving DecidableEq, Repr

/-- Details payload of `ElementOverflowIssue`. -/
structure ElementOverflowDetails where
  slideBounds : Bounds
  elementBounds : Bounds
  overflow : OverflowAmounts
deriving DecidableEq, Repr

/-- Details payload of `ScrollbarIssue`. -/
structure ScrollbarDetails where
  scrollbarType : String
  containerWidth : ℚ
  containerHeight : ℚ
  contentWidth : ℚ
  contentHeight : ℚ
  overflow : ℚ
deriving DecidableEq, Repr

/-- The three `details` variants of the `Issue` union. -/
inductive IssueDetails where
  | textOverflow (d : TextOverflowDetails)
  | elementOverflow (d : ElementOverflowDetails)
  | scrollbar (d : ScrollbarDetails)
deriving DecidableEq, Repr

/-- The tagged `Issue` union from src/types/index.ts: a `type` tag, the
element descriptor, the class-specific details and the optional source. -/
structure Issue where
  type : String
  element : ElementInfo
  details : IssueDetails
  source : Option SourceInfo := none
deriving DecidableEq, Repr

/-! ## LayoutDefinitions (src/calibration/LayoutDefinitions.ts) -/

/-- `SlotInfo` from src/types/index.ts; `position` holds one of the literal
strings full/left/right/top/bottom. -/
structure SlotInfo where
  name : String
  width : ℚ
  height : ℚ
  position : String
deriving DecidableEq, Repr

/-- A layout's slots plus total area (a `LayoutContentArea` without the name). -/
structure LayoutSlots where
  slots : List SlotInfo
  totalAvailableArea : ℚ
deriving DecidableEq, Repr

/-- `LayoutContentArea` from src/types/index.ts. -/
structure LayoutContentArea where
  layout : String
  slots : List SlotInfo
  totalAvailableArea : ℚ
deriving DecidableEq, Repr

/-- `Padding` from LayoutDefinitions.ts. -/
structure Padding where
  left : ℚ
  right : ℚ
  top : ℚ
  bottom : ℚ
deriving DecidableEq, Repr

/-- `DEFAULT_PADDING` (px-14 py-10: 56px horizontal, 40px vertical). -/
def DEFAULT_PADDING : Padding := ⟨56, 56, 40, 40⟩

/-- `COLUMN_GAP`. -/
def COLUMN_GAP : ℚ := 16

/-- `EMPHASIS_EXTRA_PADDING`. -/
def EMPHASIS_EXTRA_PADDING : ℚ := 100

/-- `HEADER_HEIGHT`. -/
def HEADER_HEIGHT : ℚ := 80

/-- JS `Math.floor` on a rational. -/
def jsFloor (q : ℚ) : ℚ := (q.floor : ℚ)

/-- `calculateContentArea`: canvas minus padding on each side. -/
def calculateContentArea (canvasWidth canvasHeight : ℚ)
    (padding : Padding := DEFAULT_PADDING) : ℚ × ℚ :=
  (canvasWidth - padding.left - padding.right,
   canvasHeight - padding.top - padding.bottom)

/-- `LAYOUT_DEFINITIONS.default`. -/
def layoutDefault (canvasWidth canvasHeight : ℚ) : LayoutSlots :=
  let area := calculateContentArea canvasWidth canvasHeight
  { slots := [⟨"default", area.1, area.2, "full"⟩],
    totalAvailableArea := area.1 * area.2 }

/-- `LAYOUT_DEFINITIONS.full`. -/
def layoutFull (canvasWidth canvasHeight : ℚ) : LayoutSlots :=
  { slots := [⟨"default", canvasWidth, canvasHeight, "full"⟩],
    totalAvailableArea := canvasWidth * canvasHeight }

/-- `LAYOUT_DEFINITIONS.center`. -/
def layoutCenter (canvasWidth canvasHeight : ℚ) : LayoutSlots :=
  let area := calculateContentArea canvasWidth canvasHeight
  { slots := [⟨"default", area.1, area.2, "full"⟩],
    totalAvailableArea := area.1 * area.2 }

/-- `LAYOUT_DEFINITIONS['two-cols']`. -/
def layoutTwoCols (canvasWidth canvasHeight : ℚ) : LayoutSlots :=
  let area := calculateContentArea canvasWidth canvasHeight
  let colWidth := jsFloor ((area.1 - COLUMN_GAP) / 2)
  { slots := [⟨"left", colWidth, area.2, "left"⟩,
              ⟨"right", colWidth, area.2, "right"⟩],
    totalAvailableArea := colWidth * area.2 * 2 }

/-- `LAYOUT_DEFINITIONS['two-cols-header']`. -/
def layoutTwoColsHeader (canvasWidth canvasHeight : ℚ) : LayoutSlots :=
  let area := calculateContentArea canvasWidth canvasHeight
  let colWidth := jsFloor ((area.1 - COLUMN_GAP) / 2)
  let bodyHeight := area.2 - HEADER_HEIGHT - COLUMN_GAP
  { slots := [⟨"header", area.1, HEADER_HEIGHT, "top"⟩,
              ⟨"left", colWidth, bodyHeight, "left"⟩,
              ⟨"right", colWidth, bodyHeight, "right"⟩],
    totalAvailableArea := area.1 * HEADER_HEIGHT + colWidth * bodyHeight * 2 }

/-- `LAYOUT_DEFINITIONS['image-left']`. -/
def layoutImageLeft (canvasWidth canvasHeight : ℚ) : LayoutSlots :=
  let contentWidth := jsFloor (canvasWidth / 2) - DEFAULT_PADDING.right
  let contentHeight := canvasHeight - DEFAULT_PADDING.top - DEFAULT_PADDING.bottom
  { slots := [⟨"default", contentWidth, contentHeight, "right"⟩],
    totalAvailableArea := contentWidth * contentHeight }

/-- `LAYOUT_DEFINITIONS['image-right']`. -/
def layoutImageRight (canvasWidth canvasHeight : ℚ) : LayoutSlots :=
  let contentWidth := jsFloor (canvasWidth / 2) - DEFAULT_PADDING.left
  let contentHeight := canvasHeight - DEFAULT_PADDING.top - DEFAULT_PADDING.bottom
  { slots := [⟨"default", contentWidth, contentHeight, "left"⟩],
    totalAvailableArea := contentWidth * contentHeight }

/-- `LAYOUT_DEFINITIONS.cover`. -/
def layoutCover (canvasWidth canvasHeight : ℚ) : LayoutSlots :=
  let area := calculateContentArea canvasWidth canvasHeight
  { slots := [⟨"default", area.1, area.2, "full"⟩],
    totalAvailableArea := area.1 * area.2 }

/-- `LAYOUT_DEFINITIONS.fact` (extra emphasis padding split over both sides). -/
def layoutFact (canvasWidth canvasHeight : ℚ) : LayoutSlots :=
  let area := calculateContentArea canvasWidth canvasHeight
    { DEFAULT_PADDING with
      left := DEFAULT_PADDING.left + EMPHASIS_EXTRA_PADDING / 2,
      right := DEFAULT_PADDING.right + EMPHASIS_EXTRA_PADDING / 2 }
  { slots := [⟨"default", area.1, area.2, "full"⟩],
    totalAvailableArea := area.1 * area.2 }

/-- `LAYOUT_DEFINITIONS` as a partial lookup table; `none` is an
unrecognized layout name.  Aliases delegate exactly as in the source
(quote→fact, statement/section/intro/end/none→default, image/iframe→full,
iframe-left/right→image-left/right). -/
def LAYOUT_DEFINITIONS (layout : String) : Option (ℚ → ℚ → LayoutSlots) :=
  if layout = "default" then some layoutDefault
  else if layout = "full" then some layoutFull
  else if layout = "center" then some layoutCenter
  else if layout = "two-cols" then some layoutTwoCols
  else if layout = "two-cols-header" then some layoutTwoColsHeader
  else if layout = "image-left" then some layoutImageLeft
  else if layout = "image-right" then some layoutImageRight
  else if layout = "cover" then some layoutCover
  else if layout = "fact" then some layoutFact
  else if layout = "quote" then some layoutFact
  else if layout = "statement" then some layoutDefault
  else if layout = "section" then some layoutDefault
  else if layout = "intro" then some layoutDefault
  else if layout = "end" then some layoutDefault
  else if layout = "image" then some layoutFull
  else if layout = "iframe" then some layoutFull
  else if layout = "iframe-left" then some layoutImageLeft
  else if layout = "iframe-right" then some layoutImageRight
  else if layout = "none" then some layoutDefault
  else none

/-- `getLayoutContentArea`: look the layout up, falling back to the default
definition, and re-attach the (requested) layout name. -/
def getLayoutContentArea (layout : String) (canvasWidth canvasHeight : ℚ) :
    LayoutContentArea :=
  let definition := (LAYOUT_DEFINITIONS layout).getD layoutDefault
  let result := definition canvasWidth canvasHeight
  { layout := layout, slots := result.slots,
    totalAvailableArea := result.totalAvailableArea }

/-! ## TextPredictor (src/calibration/TextPredictor.ts) -/

/-- `CHAR_WIDTH_RATIO = 0.6`. -/
def CHAR_WIDTH_RATIO : ℚ := 6 / 10

/-- The element roles measurable by the predictor. -/
inductive ElementType where
  | h1 | h2 | h3 | h4 | paragraph | code | listItem
deriving DecidableEq, Repr

/-- Per-role numeric table (`actualFontSizes` / `actualLineHeights`). -/
structure RoleTable where
  h1 : ℚ
  h2 : ℚ
  h3 : ℚ
  h4 : ℚ
  paragraph : ℚ
  code : ℚ
  listItem : ℚ
deriving DecidableEq, Repr

/-- Indexing a role table by element type. -/
def RoleTable.get (t : RoleTable) : ElementType → ℚ
  | .h1 => t.h1
  | .h2 => t.h2
  | .h3 => t.h3
  | .h4 => t.h4
  | .paragraph => t.paragraph
  | .code => t.code
  | .listItem => t.listItem

/-- `fontFamilies` of a `StyleCalibration`. -/
structure FontFamilies where
  sans : String
  mono : String
  serif : String
deriving DecidableEq, Repr

/-- The slice of `StyleCalibration` that `measureText` consumes. -/
structure StyleCalibration where
  canvasWidth : ℚ
  canvasHeight : ℚ
  actualFontSizes : RoleTable
  actualLineHeights : RoleTable
  fontFamilies : FontFamilies
  contentAreaWidth : ℚ
  contentAreaHeight : ℚ
deriving DecidableEq, Repr

/-- `TextMeasurement` from src/types/index.ts. -/
structure TextMeasurement where
  text : String
  font : String
  measuredWidth : ℚ
  measuredHeight : ℚ
  availableWidth : ℚ
  availableHeight : ℚ
  willOverflow : Bool
  overflowAmount : ℚ
  confidence : String
deriving DecidableEq, Repr

/-- `TextPredictor.getFontString`: `${size}px ${family}` with the mono family
for code and the sans family otherwise. -/
def getFontString (calibration : StyleCalibration) (elementType : ElementType) : String :=
  let size := calibration.actualFontSizes.get elementType
  let family :=
    if elementType = .code then calibration.fontFamilies.mono
    else calibration.fontFamilies.sans
  toString size ++ "px " ++ family

/-- `TextPredictor.estimateTextWidth`: characters times font size times the
fixed average-glyph ratio. -/
def estimateTextWidth (text : String) (fontSize : ℚ) : ℚ :=
  (jsLength text : ℚ) * fontSize * CHAR_WIDTH_RATIO

/-- `TextPredictor.measureText`.  The `?? 1.5` fallback on the line height is
unreachable because `actualLineHeights` is total in the `StyleCalibration`
type, so the plain field access is the faithful translation. -/
def measureText (calibration : StyleCalibration) (text : String)
    (elementType : ElementType) : TextMeasurement :=
  let fontSize := calibration.actualFontSizes.get elementType
  let font := getFontString calibration elementType
  let measuredWidth := estimateTextWidth text fontSize
  let lineHeight := calibration.actualLineHeights.get elementType
  let measuredHeight := fontSize * lineHeight
  let availableWidth := calibration.contentAreaWidth
  let availableHeight := calibration.contentAreaHeight
  let willOverflow := decide (measuredWidth > availableWidth)
  let overflowAmount := if willOverflow then measuredWidth - availableWidth else 0
  { text := text, font := font, measuredWidth := measuredWidth,
    measuredHeight := measuredHeight, availableWidth := availableWidth,
    availableHeight := availableHeight, willOverflow := willOverflow,
    overflowAmount := overflowAmount, confidence := "medium" }

/-! ## OverflowDetector element-level logic

The detector runs inside the rendered page; the DOM supplies computed styles,
scroll metrics and bounding rectangles.  Elements are therefore records of
those environment-measured values, and each detector's per-element decision
logic (the body of the `allElements.forEach` callbacks) is embedded as a pure
function of the element record, the resolved frame rectangle and the
threshold.  The text detector follows `OverflowDetector.detectTextOverflow`
(the Range-API revision of src OverflowDetector, carried in the repository
alongside README.ja.md); the boundary detector's clamped directional
overflows are identical in both detector revisions. -/

/-- A DOM bounding rectangle as returned by `getBoundingClientRect`. -/
structure DomRect where
  left : ℚ
  top : ℚ
  right : ℚ
  bottom : ℚ
  width : ℚ
  height : ℚ
deriving DecidableEq, Repr

/-- The DOM-measured state of one inspected element, as read by
`detectTextOverflow`: computed style strings, scroll metrics, the text
contents of its direct child text nodes, and the bounding rectangle the
Range API reports for its contents. -/
structure TextElem where
  overflow : String
  overflowX : String
  overflowY : String
  textOverflow : String
  clientWidth : ℚ
  clientHeight : ℚ
  scrollWidth : ℚ
  scrollHeight : ℚ
  childTextNodes : List String
  rangeRect : DomRect
  tagName : String
  className : String
  id : String
  textContent : String
deriving DecidableEq, Repr

/-- The `hasOverflowHidden` test: hidden overflow on either axis or ellipsis
truncation. -/
def hasOverflowHidden (e : TextElem) : Bool :=
  e.overflow = "hidden" || e.overflowX = "hidden" || e.overflowY = "hidden" ||
    e.textOverflow = "ellipsis"

/-- Whether the element has a direct (non-whitespace) child text node, the
`textNodes.length > 0` test of the detector. -/
def hasDirectText (e : TextElem) : Bool :=
  e.childTextNodes.any fun t => jsTrim t ≠ ""

/-- Selector derivation shared by all three detectors: lower-cased tag, plus
`#id` when an id is present, else the full class list joined with dots. -/
def deriveSelector (tagName className id : String) : String :=
  let selector := jsToLower tagName
  if id ≠ "" then selector ++ "#" ++ id
  else
    let classes := jsSplitWs (jsTrim className)
    if classes.length > 0 ∧ classes.headD "" ≠ "" then
      selector ++ "." ++ String.intercalate "." classes
    else selector

/-- `element.textContent?.substring(0, 50) || undefined`. -/
def textPreview (textContent : String) : Option String :=
  let t := jsTake textContent 50
  if t = "" then none else some t

/-- Per-element logic of `detectTextOverflow` (clipped-content detection):
clipping elements are measured by scroll minus client size; non-clipping
elements with direct text are measured by the Range bounding box against the
visible content frame `layoutRect`; a result is emitted when either axis
exceeds the threshold. -/
def detectTextOverflowElement (layoutRect : DomRect) (threshold : ℚ)
    (e : TextElem) : Option Issue :=
  let measures :=
    if hasOverflowHidden e then
      { containerWidth := e.clientWidth, containerHeight := e.clientHeight,
        contentWidth := e.scrollWidth, contentHeight := e.scrollHeight,
        overflowX := max 0 (e.scrollWidth - e.clientWidth),
        overflowY := max 0 (e.scrollHeight - e.clientHeight) : TextOverflowDetails }
    else if hasDirectText e then
      { containerWidth := layoutRect.width, containerHeight := layoutRect.height,
        contentWidth := e.rangeRect.width, contentHeight := e.rangeRect.height,
        overflowX := max 0 (e.rangeRect.right - layoutRect.right),
        overflowY := max 0 (e.rangeRect.bottom - layoutRect.bottom) : TextOverflowDetails }
    else
      { containerWidth := e.clientWidth, containerHeight := e.clientHeight,
        contentWidth := e.scrollWidth, contentHeight := e.scrollHeight,
        overflowX := 0, overflowY := 0 : TextOverflowDetails }
  if measures.overflowX > threshold ∨ measures.overflowY > threshold then
    some
      { type := "text-overflow",
        element :=
          { tag := jsToLower e.tagName,
            class? := if e.className ≠ "" then some e.className else none,
            id? := if e.id ≠ "" then some e.id else none,
            selector := deriveSelector e.tagName e.className e.id,
            text := textPreview e.textContent },
        details := .textOverflow measures }
  else none

/-- The four clamped directional overflows of
`detectElementOverflow` (boundary detection): how far the element rectangle
pokes out past each edge of the slide's content frame, floored at zero. -/
def elementOverflows (slideBounds : Bounds) (rect : DomRect) : OverflowAmounts :=
  { left := max 0 (slideBounds.left - rect.left),
    top := max 0 (slideBounds.top - rect.top),
    right := max 0 (rect.right - slideBounds.right),
    bottom := max 0 (rect.bottom - slideBounds.bottom) }

/-- Per-element decision of `detectElementOverflow` after the visibility and
exclusion filters: report when any clamped directional overflow exceeds the
threshold. -/
def detectElementOverflowElement (slideBounds : Bounds) (threshold : ℚ)
    (rect : DomRect) (tagName className id src : String) : Option Issue :=
  let ov := elementOverflows slideBounds rect
  if ov.left > threshold ∨ ov.top > threshold ∨ ov.right > threshold ∨
      ov.bottom > threshold then
    some
      { type := "element-overflow",
        element :=
          { tag := jsToLower tagName,
            class? := if className ≠ "" then some className else none,
            id? := if id ≠ "" then some id else none,
            selector := deriveSelector tagName className id,
            src := if jsToLower tagName = "img" then some src else none },
        details := .elementOverflow
          { slideBounds := slideBounds,
            elementBounds := ⟨rect.left, rect.top, rect.right, rect.bottom⟩,
            overflow := ov } }
  else none

/-! ## MarkdownParser (src/parsers/MarkdownParser.ts) -/

/-- `ParsedSlide` from MarkdownParser.ts. -/
structure ParsedSlide where
  content : String
  startLine : Nat
  endLine : Nat
deriving DecidableEq, Repr

/-- `FoundElement` from MarkdownParser.ts. -/
structure FoundElement where
  line : Nat
  lineEnd : Nat
  content : String
deriving DecidableEq, Repr

/-- Document-level frontmatter keys recognized by `looksLikeGlobalFrontmatter`. -/
def globalKeys : List String :=
  ["theme", "highlighter", "colorSchema", "favicon", "fonts", "canvasWidth",
   "aspectRatio"]

/-- Slide-level frontmatter keys recognized by `looksLikeSlideFrontmatter`. -/
def slideKeys : List String :=
  ["layout", "class", "clicks", "transition", "background", "backgroundSize",
   "dragPos", "preload", "routeAlias", "hide"]

/-- `looksLikeGlobalFrontmatter`, scanning the lines after the opening `---`:
stop at a closing `---`, succeed on a document-level key. -/
def looksLikeGlobalFrontmatter : List String → Bool
  | [] => false
  | l :: rest =>
    let t := jsTrim l
    if t = "---" then false
    else if globalKeys.any (fun k => jsStartsWith t (k ++ ":")) then true
    else looksLikeGlobalFrontmatter rest

/-- `looksLikeSlideFrontmatter`, scanning the lines after a separator:
a closing `---` means frontmatter, a blank line or heading means none,
a slide-level key means frontmatter. -/
def looksLikeSlideFrontmatter : List String → Bool
  | [] => false
  | l :: rest =>
    let t := jsTrim l
    if t = "---" then true
    else if t = "" ∨ jsStartsWith t "#" then false
    else if slideKeys.any (fun k => jsStartsWith t (k ++ ":")) then true
    else looksLikeSlideFrontmatter rest

/-- The state-machine loop of `MarkdownParser.parseSlides`, one step per
line.  Arguments: remaining lines, current 1-based line number, accumulated
current-slide lines, current slide start line, the two frontmatter flags,
and the slides emitted so far. -/
def parseLinesAux : List String → Nat → List String → Nat → Bool → Bool →
    List ParsedSlide → List ParsedSlide
  | [], ln, cur, start, _inG, _inS, acc =>
    acc ++ (if cur.isEmpty then [] else [⟨joinLines cur, start, ln - 1⟩])
  | line :: rest, ln, cur, start, inG, inS, acc =>
    if ln = 1 ∧ jsTrim line = "---" then
      if looksLikeGlobalFrontmatter rest then
        parseLinesAux rest (ln + 1) cur start true inS acc
      else
        parseLinesAux rest (ln + 1) (cur ++ [line]) ln inG true acc
    else if inG ∧ jsTrim line = "---" then
      parseLinesAux rest (ln + 1) cur (ln + 1) false inS acc
    else if inG then
      parseLinesAux rest (ln + 1) cur start inG inS acc
    else if inS ∧ jsTrim line = "---" then
      parseLinesAux rest (ln + 1) (cur ++ [line]) start inG false acc
    else if jsTrim line = "---" then
      let acc2 := acc ++ (if cur.isEmpty then [] else [⟨joinLines cur, start, ln - 1⟩])
      if looksLikeSlideFrontmatter rest then
        parseLinesAux rest (ln + 1) [line] ln inG true acc2
      else
        parseLinesAux rest (ln + 1) [] (ln + 1) inG inS acc2
    else
      parseLinesAux rest (ln + 1) (cur ++ [line]) start inG inS acc

/-- `MarkdownParser.parseSlides`: reject blank documents, run the line loop,
then filter out slides with blank content. -/
def parseSlides (markdown : String) : List ParsedSlide :=
  if jsTrim markdown = "" then []
  else
    (parseLinesAux (splitLines markdown) 1 [] 1 false false []).filter
      fun s => jsTrim s.content ≠ ""

/-- A standalone slide-separator line. -/
def isSep (l : String) : Bool := jsTrim l = "---"

/-- No separator of the document opens a recognized slide-metadata block. -/
def noSlideMetadata : List String → Bool
  | [] => true
  | l :: rest =>
    (!isSep l || !looksLikeSlideFrontmatter rest) && noSlideMetadata rest

/-- Helper for `segmentsNonblank`: the flag records whether the current
separator-delimited segment already contains a non-blank line. -/
def segsNonblankAux : List String → Bool → Bool
  | [], ok => ok
  | l :: rest, ok =>
    if isSep l then ok && segsNonblankAux rest false
    else segsNonblankAux rest (ok || jsTrim l ≠ "")

/-- Every separator-delimited segment of the document holds a non-blank
line (in particular the document does not start or end with a separator,
and no two separators are adjacent up to blank lines). -/
def segmentsNonblank (lines : List String) : Bool :=
  segsNonblankAux lines false

/-- Reference splitter used to state what `parseSlides` produces when no
frontmatter state is ever entered: cut at separators, recording 1-based
ranges. -/
def simpleSplit : List String → Nat → List String → Nat → List ParsedSlide
  | [], ln, cur, start =>
    if cur.isEmpty then [] else [⟨joinLines cur, start, ln - 1⟩]
  | l :: rest, ln, cur, start =>
    if isSep l then
      (if cur.isEmpty then [] else [⟨joinLines cur, start, ln - 1⟩]) ++
        simpleSplit rest (ln + 1) [] (ln + 1)
    else simpleSplit rest (ln + 1) (cur ++ [l]) start

/-- First line (0-based from the given index) satisfying a predicate,
together with the line. -/
def findLineIdx (p : String → Bool) : List String → Nat → Option (Nat × String)
  | [], _ => none
  | l :: rest, i => if p l then some (i, l) else findLineIdx p rest (i + 1)

/-- Tail of the image-regex existence test: with `prev` the previous
character, succeed when a `](` pair is followed by a later `)`. -/
def imageProbeGo (prev : Char) : List Char → Bool
  | [] => false
  | c :: cs => (prev = ']' && c = '(' && cs.contains ')') || imageProbeGo c cs

/-- Existence test for the image regex of
`MarkdownParser.findElementInSlide`, the lazy JS pattern matching
an exclamation bracket pair followed (after the alt text) by a parenthesis
pair. -/
def imageProbe : List Char → Bool
  | [] => false
  | c :: cs => imageProbeGo c cs

/-- Tail of the image scan: with `prev` the previous character, succeed when
an `![` opener is followed by the closing part of the pattern. -/
def hasImageGo (prev : Char) : List Char → Bool
  | [] => false
  | c :: cs => (prev = '!' && c = '[' && imageProbe cs) || hasImageGo c cs

/-- Scan for the image pattern anywhere in the line
(JS regex test used by the `img` branch). -/
def hasImageLine : List Char → Bool
  | [] => false
  | c :: cs => hasImageGo c cs

/-- The code-block search of `MarkdownParser.findElementInSlide`:
first fence opens, second fence closes and returns the whole block;
an unclosed block returns nothing (the function falls through to null). -/
def findCodePair (slideStartLine : Nat) :
    List String → Nat → Option (Nat × List String) → Option FoundElement
  | [], _, _ => none
  | l :: rest, i, st =>
    if jsStartsWith (jsTrim l) "```" then
      match st with
      | none => findCodePair slideStartLine rest (i + 1) (some (i, [l]))
      | some (s, acc) =>
        some ⟨slideStartLine + s, slideStartLine + i, joinLines (acc ++ [l])⟩
    else
      match st with
      | none => findCodePair slideStartLine rest (i + 1) none
      | some (s, acc) => findCodePair slideStartLine rest (i + 1) (some (s, acc ++ [l]))

/-- `MarkdownParser.findElementInSlide`: per-construct search for h1, h2,
img and code/pre; every other element type yields null. -/
def findElementInSlide (slideContent : String) (elementType : String)
    (slideStartLine : Nat) : Option FoundElement :=
  let lines := splitLines slideContent
  if elementType = "h1" then
    (findLineIdx (fun l => jsStartsWith l "# ") lines 0).map
      fun p => ⟨slideStartLine + p.1, slideStartLine + p.1, p.2⟩
  else if elementType = "h2" then
    (findLineIdx (fun l => jsStartsWith l "## ") lines 0).map
      fun p => ⟨slideStartLine + p.1, slideStartLine + p.1, p.2⟩
  else if elementType = "img" then
    (findLineIdx (fun l => hasImageLine l.data) lines 0).map
      fun p => ⟨slideStartLine + p.1, slideStartLine + p.1, p.2⟩
  else if elementType = "code" ∨ elementType = "pre" then
    findCodePair slideStartLine lines 0 none
  else none

/-- `MarkdownParser.findElementByText`: first line containing the first 50
characters of the trimmed search text. -/
def findElementByText (slideContent text : String) (slideStartLine : Nat) :
    Option FoundElement :=
  let lines := splitLines slideContent
  let searchText := jsTake (jsTrim text) 50
  (findLineIdx (fun l => jsIncludes l searchText) lines 0).map
    fun p => ⟨slideStartLine + p.1, slideStartLine + p.1, p.2⟩

/-! ## SlideMapper (src/parsers/SlideMapper.ts) -/

/-- The tag-to-search-type map of `SlideMapper.findElementInSlide`. -/
def tagMap (tag : String) : Option String :=
  if tag = "h1" then some "h1"
  else if tag = "h2" then some "h2"
  else if tag = "h3" then some "h3"
  else if tag = "img" then some "img"
  else if tag = "pre" then some "code"
  else if tag = "code" then some "code"
  else if tag = "div" then some "div"
  else none

/-- `SlideMapper.findElementInSlide`: try the tag-mapped construct search,
then the text search (skipped for an absent or empty text, which is falsy in
JS), and otherwise fall back to the whole slide with a three-line preview.
The JS function can only return null through its callees, and both fallbacks
cover that, so the result is total. -/
def slideMapperFindElement (slide : ParsedSlide) (issue : Issue) : FoundElement :=
  let byTag :=
    match tagMap issue.element.tag with
    | some searchType => findElementInSlide slide.content searchType slide.startLine
    | none => none
  match byTag with
  | some f => f
  | none =>
    let byText :=
      match issue.element.text with
      | some t =>
        if t ≠ "" then findElementByText slide.content t slide.startLine else none
      | none => none
    match byText with
    | some f => f
    | none =>
      ⟨slide.startLine, slide.endLine,
       joinLines ((splitLines slide.content).take 3) ++ "..."⟩

/-- The state a `SlideMapper` holds after `loadProject`: the parsed slides
and the source file name. -/
structure SlideMapperState where
  slides : List ParsedSlide
  sourceFile : String
deriving Repr

/-- `SlideMapper.addSourceInfo`: out-of-range slide numbers return the issue
unchanged; otherwise the located element is attached as the `source` field. -/
def addSourceInfo (m : SlideMapperState) (slideNumber : Int) (issue : Issue) :
    Issue :=
  let slideIndex := slideNumber - 1
  if slideIndex < 0 ∨ slideIndex ≥ m.slides.length then issue
  else
    match m.slides.get? slideIndex.toNat with
    | none => issue
    | some slide =>
      let element := slideMapperFindElement slide issue
      { issue with
        source := some ⟨m.sourceFile, element.line, element.lineEnd, element.content⟩ }

/-! ## EnhancedMarkdownParser (src/parsers/EnhancedMarkdownParser.ts)

The warnings the TypeScript class pushes onto its `warnings` instance field
are modelled as an explicit component of each result. -/

/-- The `unknown`-typed values stored in a `ContentNode.metadata` record. -/
inductive MetaVal where
  | s (v : String)
  | n (v : Nat)
  | b (v : Bool)
deriving DecidableEq, Repr

/-- `ContentNode` from src/types/index.ts.  The extraction pass never emits
`children`, so that optional field is omitted. -/
structure ContentNode where
  type : String
  level : Option Nat := none
  lineStart : Nat
  lineEnd : Nat
  slideIndex : Nat
  content : String
  text : Option String := none
  charCount : Option Nat := none
  metadata : List (String × MetaVal) := []
deriving DecidableEq, Repr

/-- The `{node, endIndex}` result every sub-parser returns, plus the
warnings it pushed.  `endIndex` is an integer because a sub-parser whose
scan loop consumes nothing returns `startIdx - 1`. -/
structure SubParseResult where
  node : Option ContentNode
  endIndex : Int
  warnings : List String := []
deriving Repr

/-- JS `\w` (word character). -/
def jsIsWordChar (c : Char) : Bool :=
  c.isAlpha || c.isDigit || c = '_'

/-- The heading regex of the extraction pass, anchored hashes, mandatory
whitespace and a non-empty greedy remainder; returns level and text. -/
def headingMatch (line : String) : Option (Nat × String) :=
  let cs := line.data
  let hashes := cs.takeWhile (· = '#')
  let rest := cs.dropWhile (· = '#')
  if hashes.length = 0 ∨ hashes.length > 6 then none
  else
    match rest with
    | [] => none
    | c :: _ =>
      if ¬ isJsWs c then none
      else if rest.all isJsWs then
        if rest.length ≥ 2 then
          some (hashes.length, String.mk (rest.drop (rest.length - 1)))
        else none
      else some (hashes.length, String.mk (rest.dropWhile isJsWs))

/-- The list-marker patterns of `parseList`: optional indentation, then an
ordered `d+.` or unordered `-`/`*`/`+` marker, then mandatory whitespace. -/
def listMarkerMatch (ordered : Bool) (line : String) : Bool :=
  let cs := line.data.dropWhile isJsWs
  if ordered then
    let digits := cs.takeWhile Char.isDigit
    let rest := cs.dropWhile Char.isDigit
    decide (digits.length > 0) &&
      (match rest with
       | '.' :: c :: _ => isJsWs c
       | _ => false)
  else
    match cs with
    | m :: c :: _ => (m = '-' || m = '*' || m = '+') && isJsWs c
    | _ => false

/-- The unordered-list dispatch pattern: the marker pattern plus, through
the backtracking of the greedy whitespace, at least one further character,
i.e. at least three characters from the marker on. -/
def unorderedDispatch (line : String) : Bool :=
  listMarkerMatch false line && decide (3 ≤ (line.data.dropWhile isJsWs).length)

/-- The ordered-list dispatch pattern: the marker pattern plus at least one
further character, i.e. at least three characters from the dot on. -/
def orderedDispatch (line : String) : Bool :=
  listMarkerMatch true line &&
    decide (3 ≤ ((line.data.dropWhile isJsWs).dropWhile Char.isDigit).length)

/-- Tail step of the image regex after an opening `![`: the alt text is
everything up to the first `]`, which must be followed by `(`, a non-empty
source without `)`, and a closing `)`. -/
def imageMatchAt (rest : List Char) : Option (String × String) :=
  let alt := rest.takeWhile (· ≠ ']')
  match rest.dropWhile (· ≠ ']') with
  | ']' :: '(' :: more =>
    let src := more.takeWhile (· ≠ ')')
    if src.isEmpty then none
    else
      match more.dropWhile (· ≠ ')') with
      | ')' :: _ => some (String.mk alt, String.mk src)
      | _ => none
  | _ => none

/-- Tail of the leftmost image match, with `prev` the previous character. -/
def imageMatchGo (prev : Char) : List Char → Option (String × String)
  | [] => none
  | c :: cs =>
    if prev = '!' ∧ c = '[' then
      match imageMatchAt cs with
      | some r => some r
      | none => imageMatchGo c cs
    else imageMatchGo c cs

/-- Leftmost match of the image regex of the extraction pass, capturing alt
text and source. -/
def imageMatch : List Char → Option (String × String)
  | [] => none
  | c :: cs => imageMatchGo c cs

/-- Open-tag component regex: `<v-click`/`<v-clicks`, an optional
whitespace-led attribute part, then `>`; the captured name follows the
ordered alternation of the JS pattern. -/
def vClickOpen : List Char → Option String
  | [] => none
  | c :: cs =>
    if c = '<' ∧ "v-click".data.isPrefixOf cs then
      let after := cs.drop 7
      match after with
      | '>' :: _ => some "v-click"
      | 's' :: '>' :: _ => some "v-clicks"
      | 's' :: c2 :: rest2 =>
        if isJsWs c2 ∧ (c2 :: rest2).contains '>' then some "v-clicks"
        else vClickOpen cs
      | c2 :: rest2 =>
        if isJsWs c2 ∧ (c2 :: rest2).contains '>' then some "v-click"
        else vClickOpen cs
      | [] => vClickOpen cs
    else vClickOpen cs

/-- Closing-tag component regex `</v-click>` / `</v-clicks>`. -/
def vClickClose : List Char → Option String
  | [] => none
  | c :: cs =>
    if c = '<' ∧ "/v-click".data.isPrefixOf cs then
      match cs.drop 8 with
      | '>' :: _ => some "v-click"
      | 's' :: '>' :: _ => some "v-clicks"
      | _ => vClickClose cs
    else vClickClose cs

/-- The component dispatch of the extraction pass: the open-tag regex, or
else the closing-tag regex. -/
def vClickMatch (line : String) : Option String :=
  match vClickOpen line.data with
  | some name => some name
  | none => vClickClose line.data

/-- The slot-separator regex, a fully anchored `::name::`. -/
def slotMatch (line : String) : Option String :=
  match line.data with
  | ':' :: ':' :: rest =>
    let name := rest.takeWhile jsIsWordChar
    let after := rest.dropWhile jsIsWordChar
    if ¬ name.isEmpty ∧ after = [':', ':'] then some (String.mk name) else none
  | _ => none

/-- The fenced-code language regex, backticks then word characters only. -/
def codeLangMatch (line : String) : Option String :=
  match line.data with
  | '`' :: '`' :: '`' :: rest =>
    if rest.all jsIsWordChar then some (String.mk rest) else none
  | _ => none

/-- Scan loop of `parseCodeBlock`: collect lines until a closing fence,
reporting the final index and whether the fence was closed. -/
def codeScan : List String → Nat → List String → (List String × Nat × Bool)
  | [], endIdx, acc => (acc, endIdx, false)
  | l :: rest, endIdx, acc =>
    if jsTrim l = "```" then (acc, endIdx, true)
    else codeScan rest (endIdx + 1) (acc ++ [l])

/-- `EnhancedMarkdownParser.parseCodeBlock`: an unclosed fence scans to the
end of the slide and pushes a warning naming the opening line; the node
spans from the opening fence to the (possibly virtual) closing fence. -/
def parseCodeBlock (lines : List String) (startIdx slideIndex slideStartLine : Nat) :
    SubParseResult :=
  let startLine := lines.getD startIdx ""
  let language := (codeLangMatch startLine).getD ""
  let scanned := codeScan (lines.drop (startIdx + 1)) (startIdx + 1) []
  let codeLines := scanned.1
  let endIdx := scanned.2.1
  let closed := scanned.2.2
  let warns :=
    if closed then []
    else ["Unclosed code block at line " ++ toString (slideStartLine + startIdx)]
  let content := joinLines codeLines
  { node := some
      { type := "code-block",
        lineStart := slideStartLine + startIdx,
        lineEnd := slideStartLine + endIdx,
        slideIndex := slideIndex,
        content := joinLines ((lines.drop startIdx).take (endIdx + 1 - startIdx)),
        charCount := some (jsLength content),
        metadata := [("language", .s language), ("lineCount", .n codeLines.length)] },
    endIndex := (endIdx : Int),
    warnings := warns }

/-- Whether the raw line starts with a whitespace character (JS `^\s+`). -/
def startsWithWsChar (l : String) : Bool :=
  match l.data with
  | c :: _ => isJsWs c
  | [] => false

/-- JS `line.length - line.trimStart().length`, the indentation width. -/
def indentWidth (l : String) : Nat :=
  l.data.length - (l.data.dropWhile isJsWs).length

/-- Scan loop of `parseList`: consume marker lines, indented continuation
lines, and single blank lines directly followed by another marker line;
track the accumulated lines, the final index, the maximum nesting depth and
the item count. -/
def listScan (ordered : Bool) :
    List String → Nat → List String → Nat → Nat →
    (List String × Nat × Nat × Nat)
  | [], endIdx, acc, maxDepth, itemCount => (acc, endIdx, maxDepth, itemCount)
  | l :: rest, endIdx, acc, maxDepth, itemCount =>
    if listMarkerMatch ordered l ||
        (startsWithWsChar l && decide (acc.length > 0) && decide (jsTrim l ≠ "")) then
      let depth := indentWidth l / 2
      let maxDepth2 := if depth > maxDepth then depth else maxDepth
      let itemCount2 := if listMarkerMatch ordered l then itemCount + 1 else itemCount
      listScan ordered rest (endIdx + 1) (acc ++ [l]) maxDepth2 itemCount2
    else if jsTrim l = "" ∧ rest ≠ [] ∧ listMarkerMatch ordered (rest.headD "") then
      listScan ordered rest (endIdx + 1) (acc ++ [l]) maxDepth itemCount
    else (acc, endIdx, maxDepth, itemCount)

/-- `EnhancedMarkdownParser.parseList`. -/
def parseList (lines : List String) (startIdx slideIndex slideStartLine : Nat)
    (ordered : Bool) : SubParseResult :=
  let scanned := listScan ordered (lines.drop startIdx) startIdx [] 0 0
  let listLines := scanned.1
  let endIdx := scanned.2.1
  let maxDepth := scanned.2.2.1
  let itemCount := scanned.2.2.2
  { node := some
      { type := "list",
        lineStart := slideStartLine + startIdx,
        lineEnd := slideStartLine + endIdx - 1,
        slideIndex := slideIndex,
        content := joinLines listLines,
        metadata := [("ordered", .b ordered), ("itemCount", .n itemCount),
                     ("maxDepth", .n maxDepth)] },
    endIndex := (endIdx : Int) - 1 }

/-- The character class of the table header-separator regex. -/
def tableSepClass (c : Char) : Bool :=
  isJsWs c || c = '-' || c = ':'

/-- The header-separator row regex of `parseTable`. -/
def headerSepMatch (line : String) : Bool :=
  match line.data.dropWhile isJsWs with
  | '|' :: rest =>
    decide (rest.takeWhile tableSepClass ≠ []) &&
      (match rest.dropWhile tableSepClass with
       | '|' :: _ => true
       | _ => false)
  | _ => false

/-- Scan loop of `parseTable`: consume lines containing a pipe, tracking the
maximal non-blank cell count and the row count excluding header separators. -/
def tableScan : List String → Nat → List String → Nat → Nat →
    (List String × Nat × Nat × Nat)
  | [], endIdx, acc, columns, rows => (acc, endIdx, columns, rows)
  | l :: rest, endIdx, acc, columns, rows =>
    if jsIncludes l "|" then
      let cellCount := ((jsSplitChar '|' l).filter fun c => jsTrim c ≠ "").length
      let columns2 := if cellCount > columns then cellCount else columns
      let rows2 := if headerSepMatch l then rows else rows + 1
      tableScan rest (endIdx + 1) (acc ++ [l]) columns2 rows2
    else (acc, endIdx, columns, rows)

/-- `EnhancedMarkdownParser.parseTable`; the final row count subtracts the
header row with a floor of zero. -/
def parseTable (lines : List String) (startIdx slideIndex slideStartLine : Nat) :
    SubParseResult :=
  let scanned := tableScan (lines.drop startIdx) startIdx [] 0 0
  let tableLines := scanned.1
  let endIdx := scanned.2.1
  let columns := scanned.2.2.1
  let rows := scanned.2.2.2 - 1
  { node := some
      { type := "table",
        lineStart := slideStartLine + startIdx,
        lineEnd := slideStartLine + endIdx - 1,
        slideIndex := slideIndex,
        content := joinLines tableLines,
        metadata := [("columns", .n columns), ("rows", .n rows)] },
    endIndex := (endIdx : Int) - 1 }

/-- Scan loop of `parseBlockquote`: consume quote lines and single blank
lines directly followed by another quote line, tracking the maximal leading
quote-marker depth. -/
def bqScan : List String → Nat → List String → Nat →
    (List String × Nat × Nat)
  | [], endIdx, acc, maxDepth => (acc, endIdx, maxDepth)
  | l :: rest, endIdx, acc, maxDepth =>
    if jsStartsWith (jsTrim l) ">" then
      let depth := (l.data.takeWhile (· = '>')).length
      let maxDepth2 := if depth > maxDepth then depth else maxDepth
      bqScan rest (endIdx + 1) (acc ++ [l]) maxDepth2
    else if jsTrim l = "" ∧ rest ≠ [] ∧ jsStartsWith (jsTrim (rest.headD "")) ">" then
      bqScan rest (endIdx + 1) (acc ++ [l]) maxDepth
    else (acc, endIdx, maxDepth)

/-- `EnhancedMarkdownParser.parseBlockquote`. -/
def parseBlockquote (lines : List String) (startIdx slideIndex slideStartLine : Nat) :
    SubParseResult :=
  let scanned := bqScan (lines.drop startIdx) startIdx [] 0
  let quoteLines := scanned.1
  let endIdx := scanned.2.1
  let maxDepth := scanned.2.2
  { node := some
      { type := "blockquote",
        lineStart := slideStartLine + startIdx,
        lineEnd := slideStartLine + endIdx - 1,
        slideIndex := slideIndex,
        content := joinLines quoteLines,
        metadata := [("depth", .n maxDepth)] },
    endIndex := (endIdx : Int) - 1 }

/-- The paragraph continuation condition of `parseParagraph`: a non-blank
line that opens none of the other constructs. -/
def paragraphLineOk (l : String) : Bool :=
  jsTrim l ≠ "" && !jsStartsWith l "#" && !listMarkerMatch false l &&
    !listMarkerMatch true l && !jsStartsWith l "```" && !jsStartsWith l ">" &&
    !jsStartsWith l "|" && !jsStartsWith l "<" && !jsStartsWith l "::"

/-- Scan loop of `parseParagraph`. -/
def paraScan : List String → Nat → List String → (List String × Nat)
  | [], endIdx, acc => (acc, endIdx)
  | l :: rest, endIdx, acc =>
    if paragraphLineOk l then paraScan rest (endIdx + 1) (acc ++ [l])
    else (acc, endIdx)

/-- `EnhancedMarkdownParser.parseParagraph`: an empty scan yields a null
node at the starting index, otherwise a paragraph node whose text joins the
lines with spaces and trims. -/
def parseParagraph (lines : List String) (startIdx slideIndex slideStartLine : Nat) :
    SubParseResult :=
  let scanned := paraScan (lines.drop startIdx) startIdx []
  let paragraphLines := scanned.1
  let endIdx := scanned.2
  if paragraphLines.isEmpty then
    { node := none, endIndex := (startIdx : Int) }
  else
    let text := jsTrim (String.intercalate " " paragraphLines)
    { node := some
        { type := "paragraph",
          lineStart := slideStartLine + startIdx,
          lineEnd := slideStartLine + endIdx - 1,
          slideIndex := slideIndex,
          content := joinLines paragraphLines,
          text := some text,
          charCount := some (jsLength text),
          metadata := [] },
      endIndex := (endIdx : Int) - 1 }

/-- The single forward pass of
`EnhancedMarkdownParser.extractContentNodes`, dispatching on the source
order of the branch conditions and resuming after each sub-parser at its
`endIndex + 1`; returns the emitted nodes and the pushed warnings.  The
`fuel` argument only bounds the number of loop iterations so that the
recursion is structural: every iteration below the line count advances the
scan index (the advance bounds above), so the `lines.length + 1` supplied
by `extractContentNodes` can never run out. -/
def extractLoop (lines : List String) (slideIndex slideStartLine : Nat) :
    Nat → Nat → List ContentNode × List String
  | 0, _ => ([], [])
  | fuel + 1, i =>
    if i < lines.length then
      let line := lines.getD i ""
      let lineNumber := slideStartLine + i
      match headingMatch line with
      | some lt =>
        let rest := extractLoop lines slideIndex slideStartLine fuel (i + 1)
        ({ type := "heading", level := some lt.1, lineStart := lineNumber,
           lineEnd := lineNumber, slideIndex := slideIndex, content := line,
           text := some lt.2, charCount := some (jsLength lt.2),
           metadata := [("level", .n lt.1)] } :: rest.1, rest.2)
      | none =>
        if jsStartsWith (jsTrim line) "```" then
          let r := parseCodeBlock lines i slideIndex slideStartLine
          let rest := extractLoop lines slideIndex slideStartLine fuel
            (r.endIndex + 1).toNat
          ((match r.node with | some n => n :: rest.1 | none => rest.1),
           r.warnings ++ rest.2)
        else if unorderedDispatch line then
          let r := parseList lines i slideIndex slideStartLine false
          let rest := extractLoop lines slideIndex slideStartLine fuel
            (r.endIndex + 1).toNat
          ((match r.node with | some n => n :: rest.1 | none => rest.1),
           r.warnings ++ rest.2)
        else if orderedDispatch line then
          let r := parseList lines i slideIndex slideStartLine true
          let rest := extractLoop lines slideIndex slideStartLine fuel
            (r.endIndex + 1).toNat
          ((match r.node with | some n => n :: rest.1 | none => rest.1),
           r.warnings ++ rest.2)
        else
          match imageMatch line.data with
          | some im =>
            let rest := extractLoop lines slideIndex slideStartLine fuel (i + 1)
            ({ type := "image", lineStart := lineNumber, lineEnd := lineNumber,
               slideIndex := slideIndex, content := line,
               metadata := [("alt", .s im.1), ("src", .s im.2)] } :: rest.1,
             rest.2)
          | none =>
            if jsIncludes line "|" ∧ jsStartsWith (jsTrim line) "|" then
              let r := parseTable lines i slideIndex slideStartLine
              let rest := extractLoop lines slideIndex slideStartLine fuel
                (r.endIndex + 1).toNat
              ((match r.node with | some n => n :: rest.1 | none => rest.1),
               r.warnings ++ rest.2)
            else if jsStartsWith (jsTrim line) ">" then
              let r := parseBlockquote lines i slideIndex slideStartLine
              let rest := extractLoop lines slideIndex slideStartLine fuel
                (r.endIndex + 1).toNat
              ((match r.node with | some n => n :: rest.1 | none => rest.1),
               r.warnings ++ rest.2)
            else
              match vClickMatch line with
              | some comp =>
                let rest := extractLoop lines slideIndex slideStartLine fuel (i + 1)
                ({ type := "slidev-component", lineStart := lineNumber,
                   lineEnd := lineNumber, slideIndex := slideIndex,
                   content := line,
                   metadata := [("component", .s comp)] } :: rest.1, rest.2)
              | none =>
                match slotMatch line with
                | some slotName =>
                  let rest := extractLoop lines slideIndex slideStartLine fuel (i + 1)
                  ({ type := "slot-separator", lineStart := lineNumber,
                     lineEnd := lineNumber, slideIndex := slideIndex,
                     content := line,
                     metadata := [("slotName", .s slotName)] } :: rest.1, rest.2)
                | none =>
                  if jsTrim line ≠ "" ∧ ¬ jsStartsWith (jsTrim line) "<!--" then
                    let r := parseParagraph lines i slideIndex slideStartLine
                    let rest := extractLoop lines slideIndex slideStartLine fuel
                      (r.endIndex + 1).toNat
                    ((match r.node with | some n => n :: rest.1 | none => rest.1),
                     r.warnings ++ rest.2)
                  else
                    extractLoop lines slideIndex slideStartLine fuel (i + 1)
    else ([], [])

/-- The frontmatter skip at the start of `extractContentNodes`: when the
first line is `---`, scanning begins after the matching closing `---`, and
at index 0 when no closing separator exists. -/
def slideContentStart (lines : List String) : Nat :=
  if jsTrim (lines.headD "") = "---" then
    match findLineIdx (fun l => jsTrim l = "---") (lines.drop 1) 1 with
    | some p => p.1 + 1
    | none => 0
  else 0

/-- `EnhancedMarkdownParser.extractContentNodes` with its warnings made
explicit. -/
def extractContentNodes (content : String) (slideIndex slideStartLine : Nat) :
    List ContentNode × List String :=
  let lines := splitLines content
  extractLoop lines slideIndex slideStartLine (lines.length + 1) (slideContentStart lines)

/-- The element-type counters of `SlideMetrics`. -/
structure ElementCounts where
  headings : Nat
  lists : Nat
  codeBlocks : Nat
  images : Nat
  tables : Nat
deriving DecidableEq, Repr

/-- `SlideMetrics` from EnhancedMarkdownParser.ts. -/
structure SlideMetrics where
  totalCharacters : Nat
  wordCount : Nat
  elementCounts : ElementCounts
deriving DecidableEq, Repr

/-- `EnhancedMarkdownParser.calculateMetrics`: character and word counts
come from the raw slide content, element counts from the emitted node
list. -/
def calculateMetrics (content : String) (nodes : List ContentNode) :
    SlideMetrics :=
  { totalCharacters := jsLength content,
    wordCount := ((jsSplitWs content).filter fun w => w ≠ "").length,
    elementCounts :=
      { headings := (nodes.filter fun n => n.type = "heading").length,
        lists := (nodes.filter fun n => n.type = "list").length,
        codeBlocks := (nodes.filter fun n => n.type = "code-block").length,
        images := (nodes.filter fun n => n.type = "image").length,
        tables := (nodes.filter fun n => n.type = "table").length } }

/-! ## Concrete inputs used by counterexamples and witnesses -/

/-- A content frame of 500 by 400 pixels at the origin. -/
def exampleLayoutRect : DomRect := ⟨0, 0, 500, 400, 500, 400⟩

/-- A non-clipping paragraph element whose direct text's Range bounding box
spills 100 pixels past the frame's right edge. -/
def exampleTextElem : TextElem :=
  { overflow := "visible", overflowX := "visible", overflowY := "visible",
    textOverflow := "clip", clientWidth := 100, clientHeight := 50,
    scrollWidth := 100, scrollHeight := 50,
    childTextNodes := ["Hello world"], rangeRect := ⟨0, 0, 600, 300, 600, 300⟩,
    tagName := "P", className := "", id := "", textContent := "Hello world" }

/-- An issue whose element tag has no construct finder and whose text
matches nothing in `exampleSlide`. -/
def exampleIssue : Issue :=
  { type := "text-overflow",
    element := { tag := "span", selector := "span", text := some "zzz" },
    details := .textOverflow ⟨0, 0, 0, 0, 0, 0⟩ }

/-- A four-line slide. -/
def exampleSlide : ParsedSlide := ⟨"# A\nb\nc\nd", 1, 4⟩

/-- A mapper state holding `exampleSlide` as the only slide. -/
def exampleMapper : SlideMapperState := ⟨[exampleSlide], "slides.md"⟩

/-- The chained-range property of a slide list over a document: the first
slide starts at `start`, ranges are non-empty, the line after each slide is
a separator, the next slide resumes two lines later, and the last slide
ends at the last line of the document. -/
def ChainFrom (alllines : List String) : Nat → List ParsedSlide → Prop
  | _, [] => False
  | start, [s] =>
    s.startLine = start ∧ start ≤ s.endLine ∧ s.endLine = alllines.length
  | start, s :: s2 :: tl =>
    s.startLine = start ∧ start ≤ s.endLine ∧
      isSep (alllines.getD s.endLine "") = true ∧
      ChainFrom alllines (s.endLine + 2) (s2 :: tl)

/-! ### Advance bounds of the scan loops

Each sub-parser's scan index never moves backwards, and consuming its own
trigger line moves it strictly forwards.  These bounds justify the
termination of the single forward pass below. -/

theorem codeScan_endIdx (rem : List String) :
    ∀ e acc, e ≤ (codeScan rem e acc).2.1 := by
  induction rem with
  | nil => intro e acc; simp [codeScan]
  | cons l rest ih =>
    intro e acc
    simp only [codeScan]
    split
    · exact Nat.le_refl e
    · exact Nat.le_of_succ_le (ih (e + 1) (acc ++ [l]))

theorem parseCodeBlock_advance (lines : List String) (i si sl : Nat) :
    (i : Int) + 1 ≤ (parseCodeBlock lines i si sl).endIndex := by
  have h := codeScan_endIdx (lines.drop (i + 1)) (i + 1) []
  simp only [parseCodeBlock]
  omega

theorem listScan_endIdx (ordered : Bool) (rem : List String) :
    ∀ e acc d it, e ≤ (listScan ordered rem e acc d it).2.1 := by
  induction rem with
  | nil => intro e acc d it; simp [listScan]
  | cons l rest ih =>
    intro e acc d it
    simp only [listScan]
    split
    · exact Nat.le_of_succ_le (ih (e + 1) _ _ _)
    · split
      · exact Nat.le_of_succ_le (ih (e + 1) _ _ _)
      · exact Nat.le_refl e

theorem listScan_cons_advance (ordered : Bool) (l : String) (rest : List String)
    (e : Nat) (acc : List String) (d it : Nat)
    (h : listMarkerMatch ordered l = true) :
    e + 1 ≤ (listScan ordered (l :: rest) e acc d it).2.1 := by
  simp only [listScan, h, Bool.true_or, if_pos]
  exact listScan_endIdx ordered rest (e + 1) _ _ _

theorem tableScan_endIdx (rem : List String) :
    ∀ e acc c r, e ≤ (tableScan rem e acc c r).2.1 := by
  induction rem with
  | nil => intro e acc c r; simp [tableScan]
  | cons l rest ih =>
    intro e acc c r
    simp only [tableScan]
    split
    · exact Nat.le_of_succ_le (ih (e + 1) _ _ _)
    · exact Nat.le_refl e

theorem tableScan_cons_advance (l : String) (rest : List String)
    (e : Nat) (acc : List String) (c r : Nat)
    (h : jsIncludes l "|" = true) :
    e + 1 ≤ (tableScan (l :: rest) e acc c r).2.1 := by
  simp only [tableScan, h, if_pos]
  exact tableScan_endIdx rest (e + 1) _ _ _

theorem bqScan_endIdx (rem : List String) :
    ∀ e acc d, e ≤ (bqScan rem e acc d).2.1 := by
  induction rem with
  | nil => intro e acc d; simp [bqScan]
  | cons l rest ih =>
    intro e acc d
    simp only [bqScan]
    split
    · exact Nat.le_of_succ_le (ih (e + 1) _ _)
    · split
      · exact Nat.le_of_succ_le (ih (e + 1) _ _)
      · exact Nat.le_refl e

theorem bqScan_cons_advance (l : String) (rest : List String)
    (e : Nat) (acc : List String) (d : Nat)
    (h : jsStartsWith (jsTrim l) ">" = true) :
    e + 1 ≤ (bqScan (l :: rest) e acc d).2.1 := by
  simp only [bqScan, h, if_pos]
  exact bqScan_endIdx rest (e + 1) _ _

theorem paraScan_endIdx (rem : List String) :
    ∀ e acc, e ≤ (paraScan rem e acc).2 ∧
      (acc.length < (paraScan rem e acc).1.length → e + 1 ≤ (paraScan rem e acc).2) := by
  induction rem with
  | nil => intro e acc; simp [paraScan]
  | cons l rest ih =>
    intro e acc
    simp only [paraScan]
    split
    · constructor
      · exact Nat.le_of_succ_le (ih (e + 1) _).1
      · intro _
        exact (ih (e + 1) (acc ++ [l])).1
    · simp

theorem getD_cons_drop {lines : List String} {i : Nat} (h : i < lines.length) :
    lines.drop i = lines.getD i "" :: lines.drop (i + 1) := by
  rw [List.getD_eq_getElem?_getD, List.getElem?_eq_getElem h]
  exact List.drop_eq_getElem_cons h

theorem parseList_advance (lines : List String) (i si sl : Nat) (ordered : Bool)
    (hlt : i < lines.length)
    (h : listMarkerMatch ordered (lines.getD i "") = true) :
    (i : Int) ≤ (parseList lines i si sl ordered).endIndex := by
  simp only [parseList]
  rw [getD_cons_drop hlt]
  have := listScan_cons_advance ordered (lines.getD i "") (lines.drop (i + 1)) i [] 0 0 h
  omega

theorem parseTable_advance (lines : List String) (i si sl : Nat)
    (hlt : i < lines.length)
    (h : jsIncludes (lines.getD i "") "|" = true) :
    (i : Int) ≤ (parseTable lines i si sl).endIndex := by
  simp only [parseTable]
  rw [getD_cons_drop hlt]
  have := tableScan_cons_advance (lines.getD i "") (lines.drop (i + 1)) i [] 0 0 h
  omega

theorem parseBlockquote_advance (lines : List String) (i si sl : Nat)
    (hlt : i < lines.length)
    (h : jsStartsWith (jsTrim (lines.getD i "")) ">" = true) :
    (i : Int) ≤ (parseBlockquote lines i si sl).endIndex := by
  simp only [parseBlockquote]
  rw [getD_cons_drop hlt]
  have := bqScan_cons_advance (lines.getD i "") (lines.drop (i + 1)) i [] 0 h
  omega

theorem parseParagraph_advance (lines : List String) (i si sl : Nat) :
    (i : Int) ≤ (parseParagraph lines i si sl).endIndex := by
  simp only [parseParagraph]
  have h1 := (paraScan_endIdx (lines.drop i) i []).1
  have h2 := (paraScan_endIdx (lines.drop i) i []).2
  split
  · dsimp only
    omega
  · rename_i hne
    have hpos : 0 < (paraScan (lines.drop i) i []).1.length := by
      cases hp : (paraScan (lines.drop i) i []).1 with
      | nil => rw [hp] at hne; simp at hne
      | cons a b => simp [hp]
    have := h2 (by simpa using hpos)
    dsimp only
    omega

theorem unorderedDispatch_marker (l : String)
    (h : unorderedDispatch l = true) : listMarkerMatch false l = true := by
  simp only [unorderedDispatch, Bool.and_eq_true] at h
  exact h.1

theorem orderedDispatch_marker (l : String)
    (h : orderedDispatch l = true) : listMarkerMatch true l = true := by
  simp only [orderedDispatch, Bool.and_eq_true] at h
  exact h.1

/-! ## The claims -/

/-- C7: for every canvas width W > 112 and height H > 80, the default
layout's geometry yields exactly one slot, sized (W − 112, H − 80) — the
fixed 56px horizontal and 40px vertical insets subtracted on each side. -/
theorem claim_C7_default_layout_slot (W H : ℚ) (hW : 112 < W) (hH : 80 < H) :
    (getLayoutContentArea "default" W H).slots =
      [⟨"default", W - 112, H - 80, "full"⟩] := by
  show [(⟨"default", W - 56 - 56, H - 40 - 40, "full"⟩ : SlotInfo)] = _
  norm_num [SlotInfo.mk.injEq]
  constructor <;> ring

/-- Witness for C7 at the default Slidev canvas of 980 by 552. -/
theorem claim_C7_default_layout_slot_witness :
    (getLayoutContentArea "default" 980 552).slots =
      [⟨"default", 980 - 112, 552 - 80, "full"⟩] :=
  claim_C7_default_layout_slot 980 552 (by norm_num) (by norm_num)

/-- C8: for every layout name outside the recognized layout definitions and
every canvas size, `getLayoutContentArea` returns the same geometry (slots
and total area) as the default layout on the same canvas. -/
theorem claim_C8_unknown_layout_defaults (layout : String) (W H : ℚ)
    (h : LAYOUT_DEFINITIONS layout = none) :
    (getLayoutContentArea layout W H).slots =
      (getLayoutContentArea "default" W H).slots ∧
    (getLayoutContentArea layout W H).totalAvailableArea =
      (getLayoutContentArea "default" W H).totalAvailableArea := by
  unfold getLayoutContentArea
  rw [h]
  exact ⟨rfl, rfl⟩

/-- Witness for C8 at the unrecognized name "bogus" on a 980 by 552 canvas. -/
theorem claim_C8_unknown_layout_defaults_witness :
    (getLayoutContentArea "bogus" 980 552).slots =
      (getLayoutContentArea "default" 980 552).slots ∧
    (getLayoutContentArea "bogus" 980 552).totalAvailableArea =
      (getLayoutContentArea "default" 980 552).totalAvailableArea :=
  claim_C8_unknown_layout_defaults "bogus" 980 552 rfl

/-- C9: every overflow magnitude the core produces is nonnegative with zero
meaning "not overflowing": the predictor's `overflowAmount` is 0 exactly
when `willOverflow` is false and `measuredWidth − availableWidth` otherwise,
and the boundary detector's four directional overflows are clamped at 0. -/
theorem claim_C9_overflow_nonnegative (calibration : StyleCalibration)
    (text : String) (elementType : ElementType) (slideBounds : Bounds)
    (rect : DomRect) :
    0 ≤ (measureText calibration text elementType).overflowAmount ∧
    (measureText calibration text elementType).willOverflow =
      decide ((measureText calibration text elementType).availableWidth <
        (measureText calibration text elementType).measuredWidth) ∧
    (measureText calibration text elementType).overflowAmount =
      (if (measureText calibration text elementType).willOverflow then
        (measureText calibration text elementType).measuredWidth -
          (measureText calibration text elementType).availableWidth
      else 0) ∧
    0 ≤ (elementOverflows slideBounds rect).left ∧
    0 ≤ (elementOverflows slideBounds rect).top ∧
    0 ≤ (elementOverflows slideBounds rect).right ∧
    0 ≤ (elementOverflows slideBounds rect).bottom := by
  refine ⟨?_, rfl, rfl, le_max_left 0 _, le_max_left 0 _, le_max_left 0 _,
    le_max_left 0 _⟩
  dsimp only [measureText]
  split
  · rename_i h
    have : calibration.contentAreaWidth <
        estimateTextWidth text (calibration.actualFontSizes.get elementType) := by
      simpa using of_decide_eq_true h
    linarith
  · exact le_refl 0

/-- C2: in the clipped-content detector, an element whose computed style
does not signal clipping but which has direct non-whitespace text is
measured through the text-range bounding box against the active slide's
visible content frame, and an issue is reported exactly when the horizontal
or vertical spill exceeds the threshold. -/
theorem claim_C2_nonclipping_text_range (layoutRect : DomRect) (threshold : ℚ)
    (e : TextElem) (hclip : hasOverflowHidden e = false)
    (htext : hasDirectText e = true) :
    ((detectTextOverflowElement layoutRect threshold e).isSome ↔
      (threshold < max 0 (e.rangeRect.right - layoutRect.right) ∨
       threshold < max 0 (e.rangeRect.bottom - layoutRect.bottom))) ∧
    ∀ iss, detectTextOverflowElement layoutRect threshold e = some iss →
      iss.details = .textOverflow
        { containerWidth := layoutRect.width,
          containerHeight := layoutRect.height,
          contentWidth := e.rangeRect.width,
          contentHeight := e.rangeRect.height,
          overflowX := max 0 (e.rangeRect.right - layoutRect.right),
          overflowY := max 0 (e.rangeRect.bottom - layoutRect.bottom) } := by
  unfold detectTextOverflowElement
  simp only [hclip, htext, Bool.false_eq_true, if_false, eq_self_iff_true,
    if_true]
  constructor
  · split
    · rename_i h
      simp only [Option.isSome_some, true_iff]
      exact h
    · rename_i h
      simp only [Option.isSome_none, Bool.false_eq_true, false_iff]
      exact h
  · intro iss hiss
    split at hiss
    · cases hiss
      rfl
    · cases hiss

/-- Witness for C2: a non-clipping element spilling 100px to the right of a
500 by 400 frame is reported at threshold 1, with the spill recorded. -/
theorem claim_C2_nonclipping_text_range_witness :
    ((detectTextOverflowElement exampleLayoutRect 1 exampleTextElem).isSome ↔
      (1 < max 0 (exampleTextElem.rangeRect.right - exampleLayoutRect.right) ∨
       1 < max 0 (exampleTextElem.rangeRect.bottom - exampleLayoutRect.bottom))) ∧
    ∀ iss, detectTextOverflowElement exampleLayoutRect 1 exampleTextElem = some iss →
      iss.details = .textOverflow
        { containerWidth := exampleLayoutRect.width,
          containerHeight := exampleLayoutRect.height,
          contentWidth := exampleTextElem.rangeRect.width,
          contentHeight := exampleTextElem.rangeRect.height,
          overflowX := max 0 (exampleTextElem.rangeRect.right - exampleLayoutRect.right),
          overflowY := max 0 (exampleTextElem.rangeRect.bottom - exampleLayoutRect.bottom) } :=
  claim_C2_nonclipping_text_range exampleLayoutRect 1 exampleTextElem
    (by decide) (by decide)

/-- Counterexample for C5: two slides with identical emitted node lists but
different raw contents (the second adds a blank line and an HTML comment,
which emit no node) get different character and word counts, so the
slide-level metrics are not a function of the node list alone. -/
theorem claim_C5_counterexample :
    (extractContentNodes "hello" 0 1).1 =
      (extractContentNodes "hello\n\n<!-- c -->" 0 1).1 ∧
    calculateMetrics "hello" (extractContentNodes "hello" 0 1).1 ≠
      calculateMetrics "hello\n\n<!-- c -->"
        (extractContentNodes "hello\n\n<!-- c -->" 0 1).1 := by
  constructor <;> decide

/-- C5 as amended: only the element-type counts are a function of the
emitted node list (they count the nodes by type); the character and word
counts are recomputed from the slide's raw content and do not depend on the
nodes. -/
theorem claim_C5_amended_metrics_sources :
    (∀ (c : String) (n₁ n₂ : List ContentNode),
      (calculateMetrics c n₁).totalCharacters =
        (calculateMetrics c n₂).totalCharacters ∧
      (calculateMetrics c n₁).wordCount = (calculateMetrics c n₂).wordCount) ∧
    (∀ (c₁ c₂ : String) (n : List ContentNode),
      (calculateMetrics c₁ n).elementCounts =
        (calculateMetrics c₂ n).elementCounts) ∧
    (∀ (c : String) (n : List ContentNode),
      (calculateMetrics c n).totalCharacters = jsLength c ∧
      (calculateMetrics c n).elementCounts.headings =
        (n.filter fun nd => nd.type = "heading").length ∧
      (calculateMetrics c n).elementCounts.lists =
        (n.filter fun nd => nd.type = "list").length ∧
      (calculateMetrics c n).elementCounts.codeBlocks =
        (n.filter fun nd => nd.type = "code-block").length ∧
      (calculateMetrics c n).elementCounts.images =
        (n.filter fun nd => nd.type = "image").length ∧
      (calculateMetrics c n).elementCounts.tables =
        (n.filter fun nd => nd.type = "table").length) :=
  ⟨fun _ _ _ => ⟨rfl, rfl⟩, fun _ _ _ => rfl,
   fun _ _ => ⟨rfl, rfl, rfl, rfl, rfl, rfl⟩⟩

/-- Counterexample for C10: `parseList` invoked on a line index whose line
is not a list line returns `endIndex = startIdx − 1`, so the resume index
`endIndex + 1` equals the starting index instead of advancing past it. -/
theorem claim_C10_counterexample :
    (parseList ["hello"] 0 0 1 false).endIndex = -1 ∧
    ¬ ((0 : Int) < (parseList ["hello"] 0 0 1 false).endIndex + 1) := by
  constructor <;> decide

/-- C10 as amended: every sub-parser of the extraction pass, invoked on a
line index whose line satisfies its own dispatch condition (as every call of
the single forward pass is), returns an `endIndex` whose resume index
`endIndex + 1` is strictly greater than the starting index, so the pass
advances past each sub-parser's start and terminates. -/
theorem claim_C10_amended_subparsers_advance :
    (∀ (lines : List String) (i si sl : Nat),
      (i : Int) < (parseCodeBlock lines i si sl).endIndex + 1) ∧
    (∀ (lines : List String) (i si sl : Nat) (ordered : Bool),
      i < lines.length → listMarkerMatch ordered (lines.getD i "") = true →
      (i : Int) < (parseList lines i si sl ordered).endIndex + 1) ∧
    (∀ (lines : List String) (i si sl : Nat),
      i < lines.length → jsIncludes (lines.getD i "") "|" = true →
      (i : Int) < (parseTable lines i si sl).endIndex + 1) ∧
    (∀ (lines : List String) (i si sl : Nat),
      i < lines.length → jsStartsWith (jsTrim (lines.getD i "")) ">" = true →
      (i : Int) < (parseBlockquote lines i si sl).endIndex + 1) ∧
    (∀ (lines : List String) (i si sl : Nat),
      (i : Int) < (parseParagraph lines i si sl).endIndex + 1) := by
  refine ⟨fun lines i si sl => ?_, fun lines i si sl ordered hlt hm => ?_,
    fun lines i si sl hlt hm => ?_, fun lines i si sl hlt hm => ?_,
    fun lines i si sl => ?_⟩
  · have := parseCodeBlock_advance lines i si sl
    omega
  · have := parseList_advance lines i si sl ordered hlt hm
    omega
  · have := parseTable_advance lines i si sl hlt hm
    omega
  · have := parseBlockquote_advance lines i si sl hlt hm
    omega
  · have := parseParagraph_advance lines i si sl
    omega

/-- Witness for the amended C10, applying each conjunct at a one-line
trigger input. -/
theorem claim_C10_amended_subparsers_advance_witness :
    ((0 : Int) < (parseCodeBlock ["```js", "x"] 0 0 1).endIndex + 1) ∧
    ((0 : Int) < (parseList ["- a"] 0 0 1 false).endIndex + 1) ∧
    ((0 : Int) < (parseTable ["| a |"] 0 0 1).endIndex + 1) ∧
    ((0 : Int) < (parseBlockquote ["> q"] 0 0 1).endIndex + 1) ∧
    ((0 : Int) < (parseParagraph ["hello"] 0 0 1).endIndex + 1) :=
  ⟨claim_C10_amended_subparsers_advance.1 ["```js", "x"] 0 0 1,
   claim_C10_amended_subparsers_advance.2.1 ["- a"] 0 0 1 false (by decide) (by decide),
   claim_C10_amended_subparsers_advance.2.2.1 ["| a |"] 0 0 1 (by decide) (by decide),
   claim_C10_amended_subparsers_advance.2.2.2.1 ["> q"] 0 0 1 (by decide) (by decide),
   claim_C10_amended_subparsers_advance.2.2.2.2 ["hello"] 0 0 1⟩

/-- C6: `addSourceInfo` returns the same issue with its type, element
descriptor and geometry details unchanged — at most the optional source
field is added — and an out-of-range slide number returns the issue
entirely unchanged. -/
theorem claim_C6_addSourceInfo_frame (m : SlideMapperState) (slideNumber : Int)
    (issue : Issue) :
    ((addSourceInfo m slideNumber issue).type = issue.type ∧
     (addSourceInfo m slideNumber issue).element = issue.element ∧
     (addSourceInfo m slideNumber issue).details = issue.details) ∧
    ((slideNumber - 1 < 0 ∨ (m.slides.length : Int) ≤ slideNumber - 1) →
      addSourceInfo m slideNumber issue = issue) := by
  by_cases h : slideNumber - 1 < 0 ∨ slideNumber - 1 ≥ (m.slides.length : Int)
  · have he : addSourceInfo m slideNumber issue = issue := by
      simp only [addSourceInfo, if_pos h]
    exact ⟨by rw [he]; exact ⟨rfl, rfl, rfl⟩, fun _ => he⟩
  · constructor
    · cases hg : m.slides.get? (slideNumber - 1).toNat with
      | none =>
        simp only [addSourceInfo, if_neg h, hg]
        refine ⟨?_, ?_, ?_⟩ <;> trivial
      | some slide =>
        simp only [addSourceInfo, if_neg h, hg]
        refine ⟨?_, ?_, ?_⟩ <;> trivial
    · intro hcon
      exact absurd hcon h

/-- Witness for C6's unchanged-out-of-range part at slide number 0 against
an empty slide list. -/
theorem claim_C6_addSourceInfo_frame_witness :
    ((addSourceInfo ⟨[], "slides.md"⟩ 0 exampleIssue).type = exampleIssue.type ∧
     (addSourceInfo ⟨[], "slides.md"⟩ 0 exampleIssue).element = exampleIssue.element ∧
     (addSourceInfo ⟨[], "slides.md"⟩ 0 exampleIssue).details = exampleIssue.details) ∧
    ((0 - 1 < (0 : Int) ∨ (([] : List ParsedSlide).length : Int) ≤ 0 - 1) →
      addSourceInfo ⟨[], "slides.md"⟩ 0 exampleIssue = exampleIssue) :=
  claim_C6_addSourceInfo_frame ⟨[], "slides.md"⟩ 0 exampleIssue

/-- C4: for an in-range slide number, when the issue's tag has no mapped
construct finder and the issue's text matches no line of the slide,
attribution returns (never null, never an exception) the slide's own
start/end range with the ellipsis-truncated three-line preview attached as
the source. -/
theorem claim_C4_attribution_fallback (m : SlideMapperState)
    (slideNumber : Int) (issue : Issue) (slide : ParsedSlide)
    (hpos : 0 ≤ slideNumber - 1)
    (hidx : m.slides.get? (slideNumber - 1).toNat = some slide)
    (htag : tagMap issue.element.tag = none)
    (htext : ∀ t, issue.element.text = some t →
      findElementByText slide.content t slide.startLine = none) :
    addSourceInfo m slideNumber issue =
      { issue with
        source := some {
          file := m.sourceFile, line := slide.startLine,
          lineEnd := slide.endLine,
          content := joinLines ((splitLines slide.content).take 3) ++ "..." } } := by
  have hlen : (slideNumber - 1).toNat < m.slides.length := by
    by_contra hge
    rw [List.get?_eq_none.mpr (Nat.le_of_not_lt hge)] at hidx
    cases hidx
  have hrange : ¬ (slideNumber - 1 < 0 ∨
      slideNumber - 1 ≥ (m.slides.length : Int)) := by
    push_neg
    omega
  have hfind : slideMapperFindElement slide issue =
      ⟨slide.startLine, slide.endLine,
       joinLines ((splitLines slide.content).take 3) ++ "..."⟩ := by
    unfold slideMapperFindElement
    rw [htag]
    cases ht : issue.element.text with
    | none => rfl
    | some t =>
      by_cases he : t = ""
      · subst he
        simp only [ht]
        rfl
      · simp only [ht, if_pos he, htext t ht]
  simp only [addSourceInfo, if_neg hrange, hidx, hfind]

/-- Witness for C4: a span-tagged issue whose text "zzz" occurs nowhere in
the four-line example slide is attributed to lines 1–4 with the preview. -/
theorem claim_C4_attribution_fallback_witness :
    addSourceInfo exampleMapper 1 exampleIssue =
      { exampleIssue with
        source := some {
          file := exampleMapper.sourceFile, line := exampleSlide.startLine,
          lineEnd := exampleSlide.endLine,
          content := joinLines ((splitLines exampleSlide.content).take 3) ++ "..." } } :=
  claim_C4_attribution_fallback exampleMapper 1 exampleIssue exampleSlide
    (by decide) (by decide) (by decide)
    (by intro t ht; cases ht; decide)

/-! ### Behaviour of the pass on a slide with an unterminated fence -/

theorem fence_data (fence : String) (h : jsStartsWith fence "```" = true) :
    ∃ r, fence.data = '`' :: '`' :: '`' :: r := by
  unfold jsStartsWith at h
  have hp : ("```".data : List Char) <+: fence.data :=
    List.isPrefixOf_iff_prefix.mp h
  obtain ⟨r, hr⟩ := hp
  exact ⟨r, hr.symm⟩

theorem fence_trim (fence : String) (h : jsStartsWith fence "```" = true) :
    ∃ r, (jsTrim fence).data = '`' :: '`' :: '`' :: r := by
  obtain ⟨r, hd⟩ := fence_data fence h
  unfold jsTrim
  rw [hd]
  have hnw : isJsWs '`' = false := by decide
  simp only [List.dropWhile_cons, hnw, Bool.false_eq_true, if_false]
  have hrev : ('`' :: '`' :: '`' :: r).reverse = r.reverse ++ ['`', '`', '`'] := by
    simp
  rw [hrev, List.dropWhile_append]
  split
  · exact ⟨[], by simp [List.dropWhile_cons, hnw]⟩
  · refine ⟨(r.reverse.dropWhile isJsWs).reverse, ?_⟩
    simp

theorem fence_trim_fence (fence : String) (h : jsStartsWith fence "```" = true) :
    jsStartsWith (jsTrim fence) "```" = true := by
  obtain ⟨r, hd⟩ := fence_trim fence h
  unfold jsStartsWith
  rw [hd]
  simp [List.isPrefixOf]

theorem fence_trim_nonblank (fence : String) (h : jsStartsWith fence "```" = true) :
    jsTrim fence ≠ "" := by
  obtain ⟨r, hd⟩ := fence_trim fence h
  intro he
  rw [he] at hd
  cases hd

theorem fence_trim_no_quote (fence : String) (h : jsStartsWith fence "```" = true) :
    jsStartsWith (jsTrim fence) ">" = false := by
  obtain ⟨r, hd⟩ := fence_trim fence h
  unfold jsStartsWith
  rw [hd]
  simp [List.isPrefixOf]

theorem fence_no_heading (fence : String) (h : jsStartsWith fence "```" = true) :
    headingMatch fence = none := by
  obtain ⟨r, hd⟩ := fence_data fence h
  unfold headingMatch
  rw [hd]
  simp

theorem fence_no_marker (fence : String) (h : jsStartsWith fence "```" = true)
    (ordered : Bool) : listMarkerMatch ordered fence = false := by
  obtain ⟨r, hd⟩ := fence_data fence h
  unfold listMarkerMatch
  rw [hd]
  have hnw : isJsWs '`' = false := by decide
  have hnd : Char.isDigit '`' = false := by decide
  cases ordered <;>
    simp [List.dropWhile_cons, List.takeWhile_cons, hnw, hnd]

theorem fence_no_ws (fence : String) (h : jsStartsWith fence "```" = true) :
    startsWithWsChar fence = false := by
  obtain ⟨r, hd⟩ := fence_data fence h
  unfold startsWithWsChar
  rw [hd]
  simp [isJsWs]

theorem fence_no_paragraph (fence : String) (h : jsStartsWith fence "```" = true) :
    paragraphLineOk fence = false := by
  simp [paragraphLineOk, h]

theorem codeScan_no_close (rem : List String)
    (h : ∀ l ∈ rem, jsTrim l ≠ "```") :
    ∀ e acc, codeScan rem e acc = (acc ++ rem, e + rem.length, false) := by
  induction rem with
  | nil => intro e acc; simp [codeScan]
  | cons l rest ih =>
    intro e acc
    have hl : jsTrim l ≠ "```" := h l (List.mem_cons_self l rest)
    simp only [codeScan, if_neg hl]
    rw [ih (fun x hx => h x (List.mem_cons_of_mem l hx)) (e + 1) (acc ++ [l])]
    simp only [Prod.mk.injEq, List.length_cons, List.append_assoc,
      List.cons_append, List.nil_append]
    refine ⟨?_, ?_, ?_⟩ <;> first | trivial | omega

theorem listScan_stop (ordered : Bool) (fence : String) (tail : List String)
    (hmk : listMarkerMatch ordered fence = false)
    (hws : startsWithWsChar fence = false)
    (hbl : jsTrim fence ≠ "") :
    ∀ mid e acc d it,
      (listScan ordered (mid ++ fence :: tail) e acc d it).2.1 ≤ e + mid.length := by
  intro mid
  induction mid with
  | nil =>
    intro e acc d it
    simp only [List.nil_append, listScan, hmk, hws, Bool.false_and,
      Bool.or_self, Bool.false_or, Bool.and_false, Bool.false_eq_true,
      if_false]
    rw [if_neg]
    · simp
    · intro hcon
      exact hbl hcon.1
  | cons m mid' ih =>
    intro e acc d it
    simp only [List.cons_append, listScan]
    split
    · refine le_trans (ih _ _ _ _) ?_
      simp only [List.length_cons]
      omega
    · split
      · refine le_trans (ih _ _ _ _) ?_
        simp only [List.length_cons]
        omega
      · simp

theorem tableScan_stop (fence : String) (tail : List String)
    (hpipe : jsIncludes fence "|" = false) :
    ∀ mid e acc c r,
      (tableScan (mid ++ fence :: tail) e acc c r).2.1 ≤ e + mid.length := by
  intro mid
  induction mid with
  | nil =>
    intro e acc c r
    simp only [List.nil_append, tableScan, hpipe, Bool.false_eq_true, if_false]
    simp
  | cons m mid' ih =>
    intro e acc c r
    simp only [List.cons_append, tableScan]
    split
    · refine le_trans (ih _ _ _ _) ?_
      simp only [List.length_cons]
      omega
    · simp

theorem bqScan_stop (fence : String) (tail : List String)
    (hq : jsStartsWith (jsTrim fence) ">" = false)
    (hbl : jsTrim fence ≠ "") :
    ∀ mid e acc d,
      (bqScan (mid ++ fence :: tail) e acc d).2.1 ≤ e + mid.length := by
  intro mid
  induction mid with
  | nil =>
    intro e acc d
    simp only [List.nil_append, bqScan, hq, Bool.false_eq_true, if_false]
    rw [if_neg]
    · simp
    · intro hcon
      exact hbl hcon.1
  | cons m mid' ih =>
    intro e acc d
    simp only [List.cons_append, bqScan]
    split
    · refine le_trans (ih _ _ _) ?_
      simp only [List.length_cons]
      omega
    · split
      · refine le_trans (ih _ _ _) ?_
        simp only [List.length_cons]
        omega
      · simp

theorem paraScan_stop (fence : String) (tail : List String)
    (hok : paragraphLineOk fence = false) :
    ∀ mid e acc,
      (paraScan (mid ++ fence :: tail) e acc).2 ≤ e + mid.length := by
  intro mid
  induction mid with
  | nil =>
    intro e acc
    simp only [List.nil_append, paraScan, hok, Bool.false_eq_true, if_false]
    simp
  | cons m mid' ih =>
    intro e acc
    simp only [List.cons_append, paraScan]
    split
    · refine le_trans (ih _ _) ?_
      simp only [List.length_cons]
      omega
    · simp

theorem lines_drop_split (pre post : List String) (fence : String) (i : Nat)
    (hi : i ≤ pre.length) :
    (pre ++ fence :: post).drop i = pre.drop i ++ fence :: post := by
  rw [List.drop_append_eq_append_drop, Nat.sub_eq_zero_of_le hi]
  rfl

theorem lines_getD_pre (pre post : List String) (fence : String) (i : Nat)
    (hi : i < pre.length) :
    (pre ++ fence :: post).getD i "" = pre.getD i "" := by
  rw [List.getD_eq_getElem?_getD, List.getD_eq_getElem?_getD,
    List.getElem?_append, if_pos hi]

theorem lines_getD_fence (pre post : List String) (fence : String) :
    (pre ++ fence :: post).getD pre.length "" = fence := by
  rw [List.getD_eq_getElem?_getD, List.getElem?_append,
    if_neg (lt_irrefl pre.length)]
  simp

theorem parseList_endIndex (lines : List String) (i si sl : Nat)
    (ordered : Bool) :
    (parseList lines i si sl ordered).endIndex =
      ((listScan ordered (lines.drop i) i [] 0 0).2.1 : Int) - 1 := rfl

theorem parseTable_endIndex (lines : List String) (i si sl : Nat) :
    (parseTable lines i si sl).endIndex =
      ((tableScan (lines.drop i) i [] 0 0).2.1 : Int) - 1 := rfl

theorem parseBlockquote_endIndex (lines : List String) (i si sl : Nat) :
    (parseBlockquote lines i si sl).endIndex =
      ((bqScan (lines.drop i) i [] 0).2.1 : Int) - 1 := rfl

theorem parseParagraph_endIndex (lines : List String) (i si sl : Nat) :
    (parseParagraph lines i si sl).endIndex =
      (if (paraScan (lines.drop i) i []).1.isEmpty then (i : Int)
       else ((paraScan (lines.drop i) i []).2 : Int) - 1) := by
  unfold parseParagraph
  dsimp only
  split <;> rfl

theorem getD_mem (pre : List String) (i : Nat) (hi : i < pre.length) :
    pre.getD i "" ∈ pre := by
  rw [List.getD_eq_getElem?_getD, List.getElem?_eq_getElem hi]
  exact List.getElem_mem hi

theorem parseList_bounds (pre post : List String) (fence : String)
    (si sl i : Nat) (ordered : Bool)
    (hfence : jsStartsWith fence "```" = true)
    (hi : i < pre.length)
    (hm : listMarkerMatch ordered ((pre ++ fence :: post).getD i "") = true) :
    i < ((parseList (pre ++ fence :: post) i si sl ordered).endIndex + 1).toNat ∧
    ((parseList (pre ++ fence :: post) i si sl ordered).endIndex + 1).toNat ≤
      pre.length := by
  have hlt : i < (pre ++ fence :: post).length := by
    simp only [List.length_append, List.length_cons]
    omega
  have hadv := parseList_advance (pre ++ fence :: post) i si sl ordered hlt hm
  have hstop : (listScan ordered ((pre ++ fence :: post).drop i) i [] 0 0).2.1 ≤
      pre.length := by
    rw [lines_drop_split pre post fence i (Nat.le_of_lt hi)]
    have := listScan_stop ordered fence post
      (fence_no_marker fence hfence ordered) (fence_no_ws fence hfence)
      (fence_trim_nonblank fence hfence) (pre.drop i) i [] 0 0
    calc (listScan ordered (pre.drop i ++ fence :: post) i [] 0 0).2.1
        ≤ i + (pre.drop i).length := this
      _ ≤ pre.length := by
          rw [List.length_drop]
          omega
  rw [parseList_endIndex] at hadv ⊢
  constructor
  · omega
  · omega

theorem parseTable_bounds (pre post : List String) (fence : String)
    (si sl i : Nat)
    (hpipe : jsIncludes fence "|" = false)
    (hi : i < pre.length)
    (hm : jsIncludes ((pre ++ fence :: post).getD i "") "|" = true) :
    i < ((parseTable (pre ++ fence :: post) i si sl).endIndex + 1).toNat ∧
    ((parseTable (pre ++ fence :: post) i si sl).endIndex + 1).toNat ≤
      pre.length := by
  have hlt : i < (pre ++ fence :: post).length := by
    simp only [List.length_append, List.length_cons]
    omega
  have hadv := parseTable_advance (pre ++ fence :: post) i si sl hlt hm
  have hstop : (tableScan ((pre ++ fence :: post).drop i) i [] 0 0).2.1 ≤
      pre.length := by
    rw [lines_drop_split pre post fence i (Nat.le_of_lt hi)]
    have := tableScan_stop fence post hpipe (pre.drop i) i [] 0 0
    calc (tableScan (pre.drop i ++ fence :: post) i [] 0 0).2.1
        ≤ i + (pre.drop i).length := this
      _ ≤ pre.length := by
          rw [List.length_drop]
          omega
  rw [parseTable_endIndex] at hadv ⊢
  constructor
  · omega
  · omega

theorem parseBlockquote_bounds (pre post : List String) (fence : String)
    (si sl i : Nat)
    (hfence : jsStartsWith fence "```" = true)
    (hi : i < pre.length)
    (hm : jsStartsWith (jsTrim ((pre ++ fence :: post).getD i "")) ">" = true) :
    i < ((parseBlockquote (pre ++ fence :: post) i si sl).endIndex + 1).toNat ∧
    ((parseBlockquote (pre ++ fence :: post) i si sl).endIndex + 1).toNat ≤
      pre.length := by
  have hlt : i < (pre ++ fence :: post).length := by
    simp only [List.length_append, List.length_cons]
    omega
  have hadv := parseBlockquote_advance (pre ++ fence :: post) i si sl hlt hm
  have hstop : (bqScan ((pre ++ fence :: post).drop i) i [] 0).2.1 ≤
      pre.length := by
    rw [lines_drop_split pre post fence i (Nat.le_of_lt hi)]
    have := bqScan_stop fence post (fence_trim_no_quote fence hfence)
      (fence_trim_nonblank fence hfence) (pre.drop i) i [] 0
    calc (bqScan (pre.drop i ++ fence :: post) i [] 0).2.1
        ≤ i + (pre.drop i).length := this
      _ ≤ pre.length := by
          rw [List.length_drop]
          omega
  rw [parseBlockquote_endIndex] at hadv ⊢
  constructor
  · omega
  · omega

theorem parseParagraph_bounds (pre post : List String) (fence : String)
    (si sl i : Nat)
    (hfence : jsStartsWith fence "```" = true)
    (hi : i < pre.length) :
    i < ((parseParagraph (pre ++ fence :: post) i si sl).endIndex + 1).toNat ∧
    ((parseParagraph (pre ++ fence :: post) i si sl).endIndex + 1).toNat ≤
      pre.length := by
  have hadv := parseParagraph_advance (pre ++ fence :: post) i si sl
  have hstop : (paraScan ((pre ++ fence :: post).drop i) i []).2 ≤
      pre.length := by
    rw [lines_drop_split pre post fence i (Nat.le_of_lt hi)]
    have := paraScan_stop fence post (fence_no_paragraph fence hfence)
      (pre.drop i) i []
    calc (paraScan (pre.drop i ++ fence :: post) i []).2
        ≤ i + (pre.drop i).length := this
      _ ≤ pre.length := by
          rw [List.length_drop]
          omega
  rw [parseParagraph_endIndex] at hadv ⊢
  constructor
  · split at hadv <;> split <;> omega
  · split at hadv <;> split <;> omega

theorem parseList_parts (lines : List String) (i si sl : Nat) (ordered : Bool) :
    (∃ n, (parseList lines i si sl ordered).node = some n ∧ n.type = "list") ∧
    (parseList lines i si sl ordered).warnings = [] :=
  ⟨⟨_, rfl, rfl⟩, rfl⟩

theorem parseTable_parts (lines : List String) (i si sl : Nat) :
    (∃ n, (parseTable lines i si sl).node = some n ∧ n.type = "table") ∧
    (parseTable lines i si sl).warnings = [] :=
  ⟨⟨_, rfl, rfl⟩, rfl⟩

theorem parseBlockquote_parts (lines : List String) (i si sl : Nat) :
    (∃ n, (parseBlockquote lines i si sl).node = some n ∧ n.type = "blockquote") ∧
    (parseBlockquote lines i si sl).warnings = [] :=
  ⟨⟨_, rfl, rfl⟩, rfl⟩

theorem parseParagraph_parts (lines : List String) (i si sl : Nat) :
    ((parseParagraph lines i si sl).node = none ∨
      ∃ n, (parseParagraph lines i si sl).node = some n ∧ n.type = "paragraph") ∧
    (parseParagraph lines i si sl).warnings = [] := by
  unfold parseParagraph
  dsimp only
  split
  · exact ⟨Or.inl rfl, rfl⟩
  · exact ⟨Or.inr ⟨_, rfl, rfl⟩, rfl⟩

/-- One pre-fence step of the pass: it emits no code-block node and no
warning, and resumes at a strictly later index that is still at or before
the fence. -/
theorem extract_unclosed_step (pre post : List String) (fence : String)
    (si sl fuel i : Nat)
    (hfence : jsStartsWith fence "```" = true)
    (hpipe : jsIncludes fence "|" = false)
    (hpre : ∀ l ∈ pre, jsStartsWith (jsTrim l) "```" = false)
    (hi : i < pre.length) :
    ∃ j : Nat, i < j ∧ j ≤ pre.length ∧
      (extractLoop (pre ++ fence :: post) si sl (fuel + 1) i).1.filter
          (fun n => n.type = "code-block") =
        (extractLoop (pre ++ fence :: post) si sl fuel j).1.filter
          (fun n => n.type = "code-block") ∧
      (extractLoop (pre ++ fence :: post) si sl (fuel + 1) i).2 =
        (extractLoop (pre ++ fence :: post) si sl fuel j).2 := by
  have hlt : i < (pre ++ fence :: post).length := by
    simp only [List.length_append, List.length_cons]
    omega
  have hline : (pre ++ fence :: post).getD i "" = pre.getD i "" :=
    lines_getD_pre pre post fence i hi
  have hmem : pre.getD i "" ∈ pre := getD_mem pre i hi
  have hnotfence : jsStartsWith (jsTrim (pre.getD i "")) "```" = false :=
    hpre _ hmem
  rw [extractLoop, if_pos hlt]
  dsimp only
  rw [hline]
  cases hm : headingMatch (pre.getD i "") with
  | some lt =>
    refine ⟨i + 1, by omega, by omega, ?_, rfl⟩
    rw [List.filter_cons_of_neg]
    simp
  | none =>
    rw [hnotfence]
    simp only [Bool.false_eq_true, if_false]
    cases hud : unorderedDispatch (pre.getD i "") with
    | true =>
      obtain ⟨⟨n, hn, hty⟩, hw⟩ := parseList_parts (pre ++ fence :: post) i si sl false
      obtain ⟨hjl, hju⟩ := parseList_bounds pre post fence si sl i false hfence hi
        (by rw [hline]; exact unorderedDispatch_marker _ hud)
      refine ⟨((parseList (pre ++ fence :: post) i si sl false).endIndex + 1).toNat,
        hjl, hju, ?_, ?_⟩
      · simp only [eq_self_iff_true, if_true, hn]
        rw [List.filter_cons_of_neg]
        simp [hty]
      · simp only [eq_self_iff_true, if_true, hw, List.nil_append]
    | false =>
      simp only [Bool.false_eq_true, if_false]
      cases hod : orderedDispatch (pre.getD i "") with
      | true =>
        obtain ⟨⟨n, hn, hty⟩, hw⟩ := parseList_parts (pre ++ fence :: post) i si sl true
        obtain ⟨hjl, hju⟩ := parseList_bounds pre post fence si sl i true hfence hi
          (by rw [hline]; exact orderedDispatch_marker _ hod)
        refine ⟨((parseList (pre ++ fence :: post) i si sl true).endIndex + 1).toNat,
          hjl, hju, ?_, ?_⟩
        · simp only [eq_self_iff_true, if_true, hn]
          rw [List.filter_cons_of_neg]
          simp [hty]
        · simp only [eq_self_iff_true, if_true, hw, List.nil_append]
      | false =>
        simp only [Bool.false_eq_true, if_false]
        cases him : imageMatch (pre.getD i "").data with
        | some im =>
          refine ⟨i + 1, by omega, by omega, ?_, rfl⟩
          rw [List.filter_cons_of_neg]
          simp
        | none =>
          by_cases htb : jsIncludes (pre.getD i "") "|" = true ∧
              jsStartsWith (jsTrim (pre.getD i "")) "|" = true
          · obtain ⟨⟨n, hn, hty⟩, hw⟩ := parseTable_parts (pre ++ fence :: post) i si sl
            obtain ⟨hjl, hju⟩ := parseTable_bounds pre post fence si sl i hpipe hi
              (by rw [hline]; exact htb.1)
            refine ⟨((parseTable (pre ++ fence :: post) i si sl).endIndex + 1).toNat,
              hjl, hju, ?_, ?_⟩
            · rw [if_pos htb]
              simp only [hn]
              rw [List.filter_cons_of_neg]
              simp [hty]
            · rw [if_pos htb]
              simp only [hw, List.nil_append]
          · rw [if_neg htb]
            cases hbq : jsStartsWith (jsTrim (pre.getD i "")) ">" with
            | true =>
              obtain ⟨⟨n, hn, hty⟩, hw⟩ :=
                parseBlockquote_parts (pre ++ fence :: post) i si sl
              obtain ⟨hjl, hju⟩ := parseBlockquote_bounds pre post fence si sl i
                hfence hi (by rw [hline]; exact hbq)
              refine ⟨((parseBlockquote (pre ++ fence :: post) i si sl).endIndex + 1).toNat,
                hjl, hju, ?_, ?_⟩
              · simp only [eq_self_iff_true, if_true, hn]
                rw [List.filter_cons_of_neg]
                simp [hty]
              · simp only [eq_self_iff_true, if_true, hw, List.nil_append]
            | false =>
              simp only [Bool.false_eq_true, if_false]
              cases hvc : vClickMatch (pre.getD i "") with
              | some comp =>
                refine ⟨i + 1, by omega, by omega, ?_, rfl⟩
                rw [List.filter_cons_of_neg]
                simp
              | none =>
                cases hsm : slotMatch (pre.getD i "") with
                | some slotName =>
                  refine ⟨i + 1, by omega, by omega, ?_, rfl⟩
                  rw [List.filter_cons_of_neg]
                  simp
                | none =>
                  by_cases hpg : jsTrim (pre.getD i "") ≠ "" ∧
                      ¬ jsStartsWith (jsTrim (pre.getD i "")) "<!--" = true
                  · obtain ⟨hnd, hw⟩ :=
                      parseParagraph_parts (pre ++ fence :: post) i si sl
                    obtain ⟨hjl, hju⟩ :=
                      parseParagraph_bounds pre post fence si sl i hfence hi
                    refine ⟨((parseParagraph (pre ++ fence :: post) i si sl).endIndex + 1).toNat,
                      hjl, hju, ?_, ?_⟩
                    · rw [if_pos hpg]
                      cases hnd with
                      | inl hnone => rw [hnone]
                      | inr hsome =>
                        obtain ⟨n, hn, hty⟩ := hsome
                        simp only [hn]
                        rw [List.filter_cons_of_neg]
                        simp [hty]
                    · rw [if_pos hpg]
                      simp only [hw, List.nil_append]
                  · rw [if_neg hpg]
                    exact ⟨i + 1, by omega, by omega, rfl, rfl⟩

theorem extractLoop_off_end (lines : List String) (si sl : Nat) :
    ∀ fuel i, lines.length ≤ i → extractLoop lines si sl fuel i = ([], []) := by
  intro fuel i h
  cases fuel with
  | zero => rfl
  | succ f =>
    rw [extractLoop, if_neg (by omega)]

theorem parseCodeBlock_at_fence (pre post : List String) (fence : String)
    (si sl : Nat) (hnoclose : ∀ l ∈ post, jsTrim l ≠ "```") :
    parseCodeBlock (pre ++ fence :: post) pre.length si sl =
      { node := some
          { type := "code-block",
            lineStart := sl + pre.length,
            lineEnd := sl + (pre.length + 1 + post.length),
            slideIndex := si,
            content := joinLines (fence :: post),
            charCount := some (jsLength (joinLines post)),
            metadata := [("language", .s ((codeLangMatch fence).getD "")),
                         ("lineCount", .n post.length)] },
        endIndex := ((pre.length + 1 + post.length : Nat) : Int),
        warnings := ["Unclosed code block at line " ++ toString (sl + pre.length)] } := by
  have hdrop1 : (pre ++ fence :: post).drop (pre.length + 1) = post := by
    rw [List.drop_append_eq_append_drop]
    simp
  have hdrop0 : (pre ++ fence :: post).drop pre.length = fence :: post := by
    rw [List.drop_append_eq_append_drop]
    simp
  unfold parseCodeBlock
  rw [lines_getD_fence, hdrop1, hdrop0,
    codeScan_no_close post hnoclose (pre.length + 1) []]
  dsimp only [List.nil_append]
  have htake : (fence :: post).take (pre.length + 1 + post.length + 1 - pre.length) =
      fence :: post := by
    apply List.take_of_length_le
    simp only [List.length_cons]
    omega
  rw [htake]
  rfl

theorem extract_unclosed_at_fence (pre post : List String) (fence : String)
    (si sl fuel : Nat)
    (hfence : jsStartsWith fence "```" = true)
    (hnoclose : ∀ l ∈ post, jsTrim l ≠ "```") :
    extractLoop (pre ++ fence :: post) si sl (fuel + 1) pre.length =
      ([{ type := "code-block",
          lineStart := sl + pre.length,
          lineEnd := sl + (pre.length + 1 + post.length),
          slideIndex := si,
          content := joinLines (fence :: post),
          charCount := some (jsLength (joinLines post)),
          metadata := [("language", .s ((codeLangMatch fence).getD "")),
                       ("lineCount", .n post.length)] }],
       ["Unclosed code block at line " ++ toString (sl + pre.length)]) := by
  have hlt : pre.length < (pre ++ fence :: post).length := by
    simp only [List.length_append, List.length_cons]
    omega
  rw [extractLoop, if_pos hlt]
  dsimp only
  rw [lines_getD_fence, fence_no_heading fence hfence, fence_trim_fence fence hfence]
  simp only [eq_self_iff_true, if_true,
    parseCodeBlock_at_fence pre post fence si sl hnoclose]
  rw [extractLoop_off_end (pre ++ fence :: post) si sl fuel
    ((((pre.length + 1 + post.length : Nat) : Int) + 1).toNat)
    (by simp only [List.length_append, List.length_cons]; omega)]
  rfl

/-- On a slide whose lines are `pre ++ fence :: post` with an unterminated
opening fence, the whole pass emits exactly one warning naming the fence's
line and exactly one code-block node, spanning from the fence to one line
past the end of the slide. -/
theorem extract_unclosed_main (pre post : List String) (fence : String)
    (si sl : Nat)
    (hfence : jsStartsWith fence "```" = true)
    (hpipe : jsIncludes fence "|" = false)
    (hnoclose : ∀ l ∈ post, jsTrim l ≠ "```")
    (hpre : ∀ l ∈ pre, jsStartsWith (jsTrim l) "```" = false) :
    ∀ fuel i, i ≤ pre.length → pre.length + 1 ≤ fuel + i →
      (extractLoop (pre ++ fence :: post) si sl fuel i).1.filter
          (fun n => n.type = "code-block") =
        [{ type := "code-block",
           lineStart := sl + pre.length,
           lineEnd := sl + (pre.length + 1 + post.length),
           slideIndex := si,
           content := joinLines (fence :: post),
           charCount := some (jsLength (joinLines post)),
           metadata := [("language", .s ((codeLangMatch fence).getD "")),
                        ("lineCount", .n post.length)] }] ∧
      (extractLoop (pre ++ fence :: post) si sl fuel i).2 =
        ["Unclosed code block at line " ++ toString (sl + pre.length)] := by
  intro fuel
  induction fuel with
  | zero =>
    intro i h1 h2
    omega
  | succ f ih =>
    intro i h1 h2
    rcases Nat.lt_or_ge i pre.length with hlt | hge
    · obtain ⟨j, hij, hjp, hfilter, hwarn⟩ :=
        extract_unclosed_step pre post fence si sl f i hfence hpipe hpre hlt
      obtain ⟨ih1, ih2⟩ := ih j hjp (by omega)
      exact ⟨hfilter.trans ih1, hwarn.trans ih2⟩
    · have hieq : i = pre.length := by omega
      subst hieq
      rw [extract_unclosed_at_fence pre post fence si sl f hfence hnoclose]
      constructor
      · simp [List.filter]
      · rfl

/-- Counterexample for C3: the slide "```ts\nx" at start line 10 occupies
lines 10–11, yet the single code-block node emitted for its unterminated
fence ends at line 12 — one line past the end of the slide, not at it. -/
theorem claim_C3_counterexample :
    (extractContentNodes "```ts\nx" 0 10).2 = ["Unclosed code block at line 10"] ∧
    ((extractContentNodes "```ts\nx" 0 10).1.map fun n =>
      (n.type, n.lineStart, n.lineEnd)) = [("code-block", 10, 12)] ∧
    10 + (splitLines "```ts\nx").length - 1 = 11 := by
  refine ⟨?_, ?_, ?_⟩ <;> decide

/-- C3 as amended: a slide whose lines split as `pre ++ fence :: post`, with
an opening fence that is never closed before the end of the slide (and that
no earlier fence or frontmatter block swallows), yields exactly one warning
naming the opening fence's 1-based line, and exactly one code-block node
starting at the fence and ending one line past the last line of the slide
(the line the virtual closing fence would occupy). -/
theorem claim_C3_unterminated_fence (content : String) (pre post : List String)
    (fence : String) (si sl : Nat)
    (hsplit : splitLines content = pre ++ fence :: post)
    (hfence : jsStartsWith fence "```" = true)
    (hpipe : jsIncludes fence "|" = false)
    (hnoclose : ∀ l ∈ post, jsTrim l ≠ "```")
    (hpre : ∀ l ∈ pre, jsStartsWith (jsTrim l) "```" = false)
    (hfm : slideContentStart (splitLines content) ≤ pre.length) :
    (extractContentNodes content si sl).2 =
      ["Unclosed code block at line " ++ toString (sl + pre.length)] ∧
    ∃ n, (extractContentNodes content si sl).1.filter
        (fun nd => nd.type = "code-block") = [n] ∧
      n.lineStart = sl + pre.length ∧
      n.lineEnd = sl + (splitLines content).length := by
  rw [hsplit] at hfm
  unfold extractContentNodes
  rw [hsplit]
  have hmain := extract_unclosed_main pre post fence si sl hfence hpipe hnoclose
    hpre ((pre ++ fence :: post).length + 1)
    (slideContentStart (pre ++ fence :: post)) hfm
    (by simp only [List.length_append, List.length_cons]; omega)
  refine ⟨hmain.2, ⟨_, hmain.1, rfl, ?_⟩⟩
  show sl + (pre.length + 1 + post.length) = sl + (pre ++ fence :: post).length
  simp only [List.length_append, List.length_cons]
  omega

/-- Witness for the amended C3 on the slide "# T\n```ts\nx" starting at
document line 5: one warning naming line 6, one code-block node spanning
lines 6 to 8 (one past the slide's last line 7). -/
theorem claim_C3_unterminated_fence_witness :
    (extractContentNodes "# T\n```ts\nx" 0 5).2 =
      ["Unclosed code block at line " ++ toString (5 + ["# T"].length)] ∧
    ∃ n, (extractContentNodes "# T\n```ts\nx" 0 5).1.filter
        (fun nd => nd.type = "code-block") = [n] ∧
      n.lineStart = 5 + ["# T"].length ∧
      n.lineEnd = 5 + (splitLines "# T\n```ts\nx").length :=
  claim_C3_unterminated_fence "# T\n```ts\nx" ["# T"] ["x"] "```ts" 0 5
    (by decide) (by decide) (by decide) (by decide) (by decide) (by decide)

/-! ### The slide segmentation of parseSlides -/

theorem data_append (a b : String) : (a ++ b).data = a.data ++ b.data := rfl

theorem trim_ne_empty_of_mem (s : String) (c : Char) (hc : c ∈ s.data)
    (hw : isJsWs c = false) : jsTrim s ≠ "" := by
  intro he
  have hdata : (jsTrim s).data = [] := by rw [he]
  unfold jsTrim at hdata
  rw [List.reverse_eq_nil_iff, List.dropWhile_eq_nil_iff] at hdata
  have hall : ∀ x ∈ s.data.dropWhile isJsWs, isJsWs x = true := by
    intro x hx
    exact hdata x (by simpa using hx)
  have : ∀ x ∈ s.data, isJsWs x = true := by
    intro x hx
    rw [← List.takeWhile_append_dropWhile isJsWs s.data] at hx
    rcases List.mem_append.mp hx with h | h
    · exact List.mem_takeWhile_imp h
    · exact hall x h
  rw [this c hc] at hw
  cases hw

theorem mem_data_joinLines (ls : List String) (l : String) (hl : l ∈ ls)
    (c : Char) (hc : c ∈ l.data) : c ∈ (joinLines ls).data := by
  induction ls with
  | nil => cases hl
  | cons x xs ih =>
    cases xs with
    | nil =>
      rcases List.mem_singleton.mp hl with h
      subst h
      simpa [joinLines] using hc
    | cons y ys =>
      rcases List.mem_cons.mp hl with h | h
      · subst h
        simp only [joinLines, data_append, List.mem_append]
        exact Or.inl (Or.inl hc)
      · have := ih h
        simp only [joinLines, data_append, List.mem_append]
        exact Or.inr (by simpa [joinLines] using this)

theorem joinLines_nonblank (ls : List String)
    (h : ls.any (fun l => jsTrim l ≠ "") = true) :
    jsTrim (joinLines ls) ≠ "" := by
  rw [List.any_eq_true] at h
  obtain ⟨l, hl, hne⟩ := h
  have hne2 : jsTrim l ≠ "" := by simpa using hne
  have : ∃ c ∈ l.data, isJsWs c = false := by
    by_contra hall
    push_neg at hall
    apply hne2
    have hargs : ∀ c ∈ l.data, isJsWs c = true := by
      intro c hc
      have := hall c hc
      cases hw : isJsWs c with
      | true => rfl
      | false => exact absurd hw this
    have h1 : l.data.dropWhile isJsWs = [] := List.dropWhile_eq_nil_iff.mpr hargs
    unfold jsTrim
    rw [h1]
    rfl
  obtain ⟨c, hc, hw⟩ := this
  exact trim_ne_empty_of_mem _ c (mem_data_joinLines ls l hl c hc) hw

theorem noSlideMetadata_spec (lines : List String)
    (h : noSlideMetadata lines = true) :
    ∀ k, k < lines.length → isSep (lines.getD k "") = true →
      looksLikeSlideFrontmatter (lines.drop (k + 1)) = false := by
  induction lines with
  | nil => intro k hk; simp at hk
  | cons l rest ih =>
    simp only [noSlideMetadata, Bool.and_eq_true] at h
    intro k hk hsep
    cases k with
    | zero =>
      rcases Bool.or_eq_true_iff.mp h.1 with h1 | h1
      · rw [List.getD_cons_zero] at hsep
        rw [Bool.not_eq_true'] at h1
        rw [h1] at hsep
        cases hsep
      · rw [Bool.not_eq_true'] at h1
        simpa using h1
    | succ k' =>
      have := ih h.2 k' (by simpa using Nat.lt_of_succ_lt_succ hk)
        (by simpa using hsep)
      simpa using this

/-- With both frontmatter flags off and past line 1, and no separator of the
remaining document opening a slide-metadata block, the `parseSlides` loop is
the plain separator split. -/
theorem parseLinesAux_clean (rest : List String) :
    ∀ ln cur start acc, 2 ≤ ln →
      (∀ k, k < rest.length → isSep (rest.getD k "") = true →
        looksLikeSlideFrontmatter (rest.drop (k + 1)) = false) →
      parseLinesAux rest ln cur start false false acc =
        acc ++ simpleSplit rest ln cur start := by
  induction rest with
  | nil =>
    intro ln cur start acc h2 hsep
    rfl
  | cons l rest ih =>
    intro ln cur start acc h2 hsep
    have hsep' : ∀ k, k < rest.length → isSep (rest.getD k "") = true →
        looksLikeSlideFrontmatter (rest.drop (k + 1)) = false := by
      intro k hk hs
      have := hsep (k + 1) (by simpa using Nat.succ_lt_succ hk) (by simpa using hs)
      simpa using this
    have hln1 : ¬ (ln = 1 ∧ jsTrim l = "---") := fun hc => by omega
    by_cases hl : jsTrim l = "---"
    · have hfm : looksLikeSlideFrontmatter rest = false :=
        hsep 0 (by simp) (by simpa [isSep] using hl)
      simp only [parseLinesAux, if_neg hln1, Bool.false_eq_true, false_and,
        if_false, if_pos hl, hfm]
      rw [ih (ln + 1) [] (ln + 1) _ (by omega) hsep']
      simp only [simpleSplit, isSep, hl, if_pos, List.append_assoc]
      rfl
    · simp only [parseLinesAux, if_neg hln1, Bool.false_eq_true, false_and,
        if_false, if_neg hl]
      rw [ih (ln + 1) (cur ++ [l]) start acc (by omega) hsep']
      simp [simpleSplit, isSep, hl]

theorem simpleSplit_chain (alllines : List String) (rest : List String) :
    ∀ (ln : Nat) (cur : List String) (start : Nat),
      alllines.drop (ln - 1) = rest →
      1 ≤ start → start ≤ ln → cur.length = ln - start →
      ln - 1 ≤ alllines.length →
      segsNonblankAux rest (cur.any fun l => jsTrim l ≠ "") = true →
      ChainFrom alllines start (simpleSplit rest ln cur start) ∧
      (simpleSplit rest ln cur start).length = rest.countP isSep + 1 ∧
      ∀ s ∈ simpleSplit rest ln cur start, jsTrim s.content ≠ "" := by
  induction rest with
  | nil =>
    intro ln cur start hd h1 h2 hlen hle hsegs
    have hflag : (cur.any fun l => jsTrim l ≠ "") = true := by
      simpa [segsNonblankAux] using hsegs
    have hcur : ¬ cur.isEmpty = true := by
      rcases List.any_eq_true.mp hflag with ⟨x, hx, _⟩
      cases cur with
      | nil => cases hx
      | cons a b => simp
    have hlenfull : alllines.length ≤ ln - 1 := by
      by_contra hcon
      have := List.drop_eq_nil_iff.mp hd
      omega
    have hend : ln - 1 = alllines.length := by omega
    have hcurne : cur.length ≥ 1 := by
      cases cur with
      | nil => simp at hcur
      | cons a b => simp
    simp only [simpleSplit, if_neg hcur]
    refine ⟨?_, by simp, ?_⟩
    · simp only [ChainFrom]
      exact ⟨trivial, by omega, hend⟩
    · intro s hs
      rcases List.mem_singleton.mp hs with rfl
      exact joinLines_nonblank cur hflag
  | cons l rest' ih =>
    intro ln cur start hd h1 h2 hlen hle hsegs
    have hne : alllines.drop (ln - 1) ≠ [] := by rw [hd]; simp
    have hlt : ln - 1 < alllines.length := by
      by_contra hcon
      exact hne (List.drop_eq_nil_of_le (by omega))
    have hgetD : alllines.getD (ln - 1) "" = l := by
      rw [List.getD_eq_getElem?_getD, ← List.head?_drop, hd]
      rfl
    have hdrop' : alllines.drop ln = rest' := by
      have h11 : alllines.drop ln = (alllines.drop (ln - 1)).drop 1 := by
        rw [List.drop_drop]
        congr 1
        omega
      rw [h11, hd]
      rfl
    by_cases hl : isSep l = true
    · have hsplit : segsNonblankAux (l :: rest')
          (cur.any fun x => jsTrim x ≠ "") =
          ((cur.any fun x => jsTrim x ≠ "") && segsNonblankAux rest' false) := by
        simp [segsNonblankAux, hl]
      rw [hsplit] at hsegs
      obtain ⟨hflag, hrec⟩ := Bool.and_eq_true_iff.mp hsegs
      have hcur : ¬ cur.isEmpty = true := by
        rcases List.any_eq_true.mp hflag with ⟨x, hx, _⟩
        cases cur with
        | nil => cases hx
        | cons a b => simp
      have hcurne : cur.length ≥ 1 := by
        cases cur with
        | nil => simp at hcur
        | cons a b => simp
      obtain ⟨hchain', hcount', hcontents'⟩ :=
        ih (ln + 1) [] (ln + 1) (by simpa using hdrop') (by omega) (by omega)
          (by simp) (by omega) (by simpa using hrec)
      simp only [simpleSplit, hl, if_pos, if_neg hcur]
      constructor
      · cases hS : simpleSplit rest' (ln + 1) [] (ln + 1) with
        | nil => rw [hS] at hchain'; simp [ChainFrom] at hchain'
        | cons s2 tl =>
          rw [hS] at hchain'
          simp only [List.singleton_append, ChainFrom]
          refine ⟨trivial, by omega, ?_, ?_⟩
          · show isSep (alllines.getD (ln - 1) "") = true
            rw [hgetD]
            exact hl
          · have heq : ln - 1 + 2 = ln + 1 := by omega
            show ChainFrom alllines (ln - 1 + 2) (s2 :: tl)
            rw [heq]
            exact hchain'
      · constructor
        · simp only [List.singleton_append, List.length_cons, hcount',
            List.countP_cons, hl]
          simp
        · intro s hs
          rcases List.mem_cons.mp hs with rfl | hs2
          · exact joinLines_nonblank cur hflag
          · exact hcontents' s hs2
    · have hl2 : isSep l = false := by
        cases hli : isSep l with
        | true => exact absurd hli hl
        | false => rfl
      have hsplit : segsNonblankAux (l :: rest')
          (cur.any fun x => jsTrim x ≠ "") =
          segsNonblankAux rest'
            ((cur.any fun x => jsTrim x ≠ "") || decide (jsTrim l ≠ "")) := by
        simp [segsNonblankAux, hl2]
      rw [hsplit] at hsegs
      have hany : ((cur ++ [l]).any fun x => jsTrim x ≠ "") =
          ((cur.any fun x => jsTrim x ≠ "") || decide (jsTrim l ≠ "")) := by
        simp
      obtain ⟨hchain', hcount', hcontents'⟩ :=
        ih (ln + 1) (cur ++ [l]) start (by simpa using hdrop') h1 (by omega)
          (by simp; omega) (by omega) (by rw [hany]; exact hsegs)
      simp only [simpleSplit, hl2, Bool.false_eq_true, if_false]
      refine ⟨hchain', ?_, hcontents'⟩
      rw [hcount', List.countP_cons, hl2]
      simp

theorem chain_facts (alllines : List String) :
    ∀ (S : List ParsedSlide) (start : Nat), 1 ≤ start →
      ChainFrom alllines start S →
      (∀ s ∈ S, start ≤ s.startLine ∧ s.startLine ≤ s.endLine ∧
        s.endLine ≤ alllines.length) ∧
      List.Pairwise (fun a b => a.endLine < b.startLine) S ∧
      (∀ l, start ≤ l → l ≤ alllines.length →
        isSep (alllines.getD (l - 1) "") = true ∨
        ∃ s ∈ S, s.startLine ≤ l ∧ l ≤ s.endLine) := by
  intro S
  induction S with
  | nil => intro start h1 hch; exact absurd hch (by simp [ChainFrom])
  | cons s S' ih =>
    intro start h1 hch
    cases S' with
    | nil =>
      obtain ⟨hst, hse, hend⟩ := hch
      refine ⟨?_, by simp, ?_⟩
      · intro x hx
        rcases List.mem_singleton.mp hx with rfl
        omega
      · intro l hl1 hl2
        right
        exact ⟨s, List.mem_singleton.mpr rfl, by omega, by omega⟩
    | cons s2 tl =>
      obtain ⟨hst, hse, hsep, hch'⟩ := hch
      obtain ⟨hb', hpw', hcov'⟩ := ih (s.endLine + 2) (by omega) hch'
      have hb2 := hb' s2 (List.mem_cons_self s2 tl)
      refine ⟨?_, ?_, ?_⟩
      · intro x hx
        rcases List.mem_cons.mp hx with rfl | hx2
        · exact ⟨by omega, by omega, by omega⟩
        · have := hb' x hx2
          exact ⟨by omega, by omega, by omega⟩
      · refine List.pairwise_cons.mpr ⟨?_, hpw'⟩
        intro b hb
        have := hb' b hb
        omega
      · intro l hl1 hl2
        by_cases hle : l ≤ s.endLine
        · right
          exact ⟨s, List.mem_cons_self _ _, by omega, hle⟩
        · by_cases heq : l = s.endLine + 1
          · left
            have : l - 1 = s.endLine := by omega
            rw [this]
            exact hsep
          · rcases hcov' l (by omega) hl2 with hsepL | ⟨x, hx, hxa, hxb⟩
            · exact Or.inl hsepL
            · exact Or.inr ⟨x, List.mem_cons_of_mem s hx, hxa, hxb⟩

/-- C1 counterexample: the two-line document of a non-blank line followed by
a standalone separator has one separator and no slide-metadata block, yet
`parseSlides` returns one slide, not two: the segment after the final
separator is empty and is discarded, so the N separators / N+1 slides count
fails without a non-blank-segments hypothesis. -/
theorem claim_C1_counterexample :
    (splitLines "a\n---").countP isSep = 1 ∧
    noSlideMetadata (splitLines "a\n---") = true ∧
    jsTrim "a\n---" ≠ "" ∧
    (parseSlides "a\n---").length ≠ 1 + 1 := by
  refine ⟨by decide, by decide, by decide, by decide⟩

/-- C1 amended: for a non-blank document with no slide-level metadata block
and a non-blank line in every separator-delimited segment, `parseSlides`
returns exactly (number of separator lines) + 1 slides; the slides' 1-based
line ranges are strictly increasing and non-overlapping, each lies within
[1, totalLines], and every document line is a separator line or inside some
slide's range, so the ranges plus the separator lines tile the document. -/
theorem claim_C1_amended (markdown : String)
    (hnb : jsTrim markdown ≠ "")
    (hmeta : noSlideMetadata (splitLines markdown) = true)
    (hsegs : segmentsNonblank (splitLines markdown) = true) :
    (parseSlides markdown).length =
      (splitLines markdown).countP isSep + 1 ∧
    List.Pairwise (fun a b => a.endLine < b.startLine) (parseSlides markdown) ∧
    (∀ s ∈ parseSlides markdown, 1 ≤ s.startLine ∧ s.startLine ≤ s.endLine ∧
      s.endLine ≤ (splitLines markdown).length) ∧
    (∀ l, 1 ≤ l → l ≤ (splitLines markdown).length →
      isSep ((splitLines markdown).getD (l - 1) "") = true ∨
      ∃ s ∈ parseSlides markdown, s.startLine ≤ l ∧ l ≤ s.endLine) := by
  cases hlines : splitLines markdown with
  | nil =>
    rw [hlines] at hsegs
    simp [segmentsNonblank, segsNonblankAux] at hsegs
  | cons l1 rest =>
    rw [hlines] at hmeta hsegs
    have hl1 : isSep l1 = false := by
      cases h : isSep l1 with
      | false => rfl
      | true => simp [segmentsNonblank, segsNonblankAux, h] at hsegs
    have hl1' : ¬ (jsTrim l1 = "---") := by simpa [isSep] using hl1
    have hsep' : ∀ k, k < rest.length → isSep (rest.getD k "") = true →
        looksLikeSlideFrontmatter (rest.drop (k + 1)) = false := by
      intro k hk hs
      have hh := noSlideMetadata_spec (l1 :: rest) hmeta (k + 1)
        (by simp only [List.length_cons]; omega) (by simpa using hs)
      simpa using hh
    have hstep : parseLinesAux (l1 :: rest) 1 [] 1 false false [] =
        parseLinesAux rest 2 [l1] 1 false false [] := by
      simp [parseLinesAux, hl1']
    have hps : parseSlides markdown =
        (simpleSplit rest 2 [l1] 1).filter fun s => jsTrim s.content ≠ "" := by
      rw [parseSlides, if_neg hnb, hlines, hstep,
        parseLinesAux_clean rest 2 [l1] 1 [] (by omega) hsep', List.nil_append]
    have hsegs' : segsNonblankAux rest ([l1].any fun l => jsTrim l ≠ "") = true := by
      simpa [segmentsNonblank, segsNonblankAux, hl1] using hsegs
    obtain ⟨hchain, hcount, hcontents⟩ :=
      simpleSplit_chain (l1 :: rest) rest 2 [l1] 1 rfl (le_refl 1) (by omega)
        rfl (by simp) hsegs'
    obtain ⟨hbounds, hpw, hcov⟩ :=
      chain_facts (l1 :: rest) (simpleSplit rest 2 [l1] 1) 1 (le_refl 1) hchain
    have hfilter : ((simpleSplit rest 2 [l1] 1).filter
        fun s => jsTrim s.content ≠ "") = simpleSplit rest 2 [l1] 1 :=
      List.filter_eq_self.mpr (fun s hs => by simpa using hcontents s hs)
    rw [hps, hfilter]
    refine ⟨?_, hpw, hbounds, hcov⟩
    rw [hcount]
    simp [List.countP_cons, hl1]

theorem claim_C1_amended_witness :
    (parseSlides "# A\n---\n# B").length =
      (splitLines "# A\n---\n# B").countP isSep + 1 ∧
    List.Pairwise (fun a b => a.endLine < b.startLine)
      (parseSlides "# A\n---\n# B") ∧
    (∀ s ∈ parseSlides "# A\n---\n# B", 1 ≤ s.startLine ∧
      s.startLine ≤ s.endLine ∧
      s.endLine ≤ (splitLines "# A\n---\n# B").length) ∧
    (∀ l, 1 ≤ l → l ≤ (splitLines "# A\n---\n# B").length →
      isSep ((splitLines "# A\n---\n# B").getD (l - 1) "") = true ∨
      ∃ s ∈ parseSlides "# A\n---\n# B", s.startLine ≤ l ∧ l ≤ s.endLine) :=
  claim_C1_amended "# A\n---\n# B" (by decide) (by decide) (by decide)
